import Mathlib

/-!
Verification development for the goaeoas REST resource binding layer.

The definitions below are a shallow embedding of the Go sources:
  * the type-descriptor model (`DocType`/`DocField`, `NewDocType`,
    `NewDocFields`) from src/unnamed/part_004 lines 376-537,
  * the request-body filter (`filterJSON`, `copyJSON`) from
    src/unnamed/part_004 lines 539-587,
  * the schema projection (`DocType.ToJSONSchema`) from
    src/unnamed/part_008 lines 420-478,
  * links and their serialization (`Link.Resolve`, `Link.MarshalJSON`,
    `Links.Less`) from src/unnamed/part_004 lines 196-359,
  * item rendering (`Item.HTMLNode`) from src/unnamed/part_004 lines 639-705,
  * resource handler validation (`validateResourceFunc`, `HandleResource`)
    from src/resource.go lines 45-100 and 235-267.

Go computations that can return an `error` or panic are modelled with the
`GoResult` outcome type; a Go panic (unchecked type assertion, nil map
dereference, `panic(...)`) is the `crash` constructor, a returned non-nil
`error` is the `err` constructor.

Machine integers never overflow in the modelled code paths, so JSON numbers
are modelled as `Int`.
-/

namespace Goaeoas

/-- Outcome of running a Go computation: a returned value, a returned
non-nil `error`, or a panic. -/
inductive GoResult (α : Type) where
  | ok (a : α)
  | err (msg : String)
  | crash (msg : String)
deriving DecidableEq, Repr

/-! ## The Go type universe

A `GoType` is the reflection view of the Go types the claims exercise:
strings, booleans, integers (all integer widths behave alike in the
modelled code, so one constructor stands for them), the designated
`*datastore.Key` pointer type (`keyType` in part_004 line 43), any other
pointer type, slices, string-keyed maps, and named struct types with
tagged fields.  `GoField` carries exactly the reflection data the source
reads: the field name, the `Anonymous` flag, and the raw `json` and
`methods` struct tags.  The designated `time.Time` struct and the exotic
kinds (chan, func, uint, ...) are outside the claims and are not part of
the universe. -/

mutual
inductive GoType where
  | stringT
  | boolT
  | intT
  | ptrKey
  | ptrOther (name : String)
  | sliceT (elem : GoType)
  | mapT (value : GoType)
  | structT (name : String) (fields : GoFields)
inductive GoFields where
  | nil
  | cons (f : GoField) (rest : GoFields)
inductive GoField where
  | mk (name : String) (anonymous : Bool) (jsonTag : String) (methodsTag : String) (typ : GoType)
end

def GoField.name : GoField → String
  | .mk n _ _ _ _ => n

def GoField.anonymous : GoField → Bool
  | .mk _ a _ _ _ => a

def GoField.jsonTag : GoField → String
  | .mk _ _ j _ _ => j

def GoField.methodsTag : GoField → String
  | .mk _ _ _ m _ => m

def GoField.typ : GoField → GoType
  | .mk _ _ _ _ t => t

/-- Result of reflect's `Kind().String()` on the modelled universe. -/
def GoType.kindString : GoType → String
  | .stringT => "string"
  | .boolT => "bool"
  | .intT => "int"
  | .ptrKey => "ptr"
  | .ptrOther _ => "ptr"
  | .sliceT _ => "slice"
  | .mapT _ => "map"
  | .structT _ _ => "struct"

/-- Result of reflect's `Type.String()` on the modelled universe (used for
`DocType.Name` and for `%v` of a type in error messages). -/
def GoType.typeName : GoType → String
  | .stringT => "string"
  | .boolT => "bool"
  | .intT => "int"
  | .ptrKey => "*datastore.Key"
  | .ptrOther n => n
  | .sliceT e => "[]" ++ e.typeName
  | .mapT v => "map[string]" ++ v.typeName
  | .structT n _ => n

/-! ## The type descriptor model (src/unnamed/part_004 lines 376-392, 461-465)

`DocType` mirrors the Go struct: `Kind`, `Name`, `Elem`, `Fields` plus the
unexported `typ` and `method` fields.  `DocField` mirrors `Name`, `Type`
and the retained `reflect.StructField`.  `DocElem` plays the role of the
nullable `*DocType` pointer. -/

mutual
inductive DocType where
  | mk (kind : String) (docName : String) (elem : DocElem) (fields : DocFields)
       (typ : GoType) (method : String)
inductive DocElem where
  | noElem
  | someElem (d : DocType)
inductive DocFields where
  | nil
  | cons (f : DocField) (rest : DocFields)
inductive DocField where
  | mk (name : String) (type : DocType) (field : GoField)
end

def DocType.Kind : DocType → String
  | .mk k _ _ _ _ _ => k

def DocType.Name : DocType → String
  | .mk _ n _ _ _ _ => n

def DocType.Elem : DocType → DocElem
  | .mk _ _ e _ _ _ => e

def DocType.Fields : DocType → DocFields
  | .mk _ _ _ fs _ _ => fs

def DocType.typ : DocType → GoType
  | .mk _ _ _ _ t _ => t

def DocType.method : DocType → String
  | .mk _ _ _ _ _ m => m

def DocField.Name : DocField → String
  | .mk n _ _ => n

def DocField.Type : DocField → DocType
  | .mk _ t _ => t

def DocField.field : DocField → GoField
  | .mk _ _ f => f

/-- Append of descriptor field lists, used for flattening anonymous fields
(`result = append(result, f...)`, part_004 line 498). -/
def DocFields.append : DocFields → DocFields → DocFields
  | .nil, r => r
  | .cons f rest, r => .cons f (rest.append r)

/-- Names of the fields, in order. -/
def DocFields.names : DocFields → List String
  | .nil => []
  | .cons f rest => f.Name :: rest.names

/-- Linear search mirroring `DocType.GetField`'s loop
(src/unnamed/part_004 lines 385-392); `Option` models the `(*DocField, bool)`
return pair. -/
def DocFields.find : DocFields → String → Option DocField
  | .nil, _ => none
  | .cons f rest, n => if f.Name = n then some f else rest.find n

/-- Mirror of `DocType.GetField` (src/unnamed/part_004 lines 385-392). -/
def DocType.GetField (d : DocType) (n : String) : Option DocField :=
  d.Fields.find n

/-! ## Field visibility (src/unnamed/part_004 lines 480-491)

The `found` computation of `NewDocFields`: for method `GET` or the empty
method a field is included unless its `json` tag is `-`; for any other
method the `methods` tag is split on `,` and scanned for the method. -/

/-- Accumulator splitter behind `goSplitComma`. -/
def splitAcc : List Char → List Char → List String
  | [], acc => [String.mk acc.reverse]
  | c :: rest, acc =>
    if c = ',' then String.mk acc.reverse :: splitAcc rest []
    else splitAcc rest (c :: acc)

/-- Model of Go's `strings.Split(s, ",")`: splitting the empty string gives
`[""]`, a trailing comma gives a trailing empty piece. -/
def goSplitComma (s : String) : List String :=
  splitAcc s.data []

/-- Mirror of the inner `for j` loop over `strings.Split(tag, ",")` with
its `break` (part_004 lines 485-490). -/
def containsLoop : List String → String → Bool
  | [], _ => false
  | m :: rest, method => if m == method then true else containsLoop rest method

/-- Mirror of the `found` computation in `NewDocFields`
(src/unnamed/part_004 lines 480-491). -/
def goFound (f : GoField) (method : String) : Bool :=
  if method == "GET" || method == "" then !(f.jsonTag == "-")
  else containsLoop (goSplitComma f.methodsTag) method

/-! ## Descriptor construction (src/unnamed/part_004 lines 476-537)

`NewDocType` fills `Kind`, `Name`, `typ`, `method` for every type, recurses
into `NewDocFields` for structs and into the element type for slices.
`NewDocFields` walks a struct's fields (the walk over `typ.NumField()`
requires a struct type; anything else panics inside reflect): a `found`
anonymous field is flattened by recursing into `NewDocFields` of its
type; a `found` named field becomes a `DocField` carrying `NewDocType`
of its type. -/

mutual
def NewDocType (typ : GoType) (method : String) : GoResult DocType :=
  match typ with
  | .structT n fs =>
    match docFieldsOf fs method with
    | .ok dfs => .ok (.mk (GoType.structT n fs).kindString (GoType.structT n fs).typeName
        .noElem dfs (.structT n fs) method)
    | .err e => .err e
    | .crash e => .crash e
  | .sliceT e =>
    match NewDocType e method with
    | .ok d => .ok (.mk (GoType.sliceT e).kindString (GoType.sliceT e).typeName
        (.someElem d) .nil (.sliceT e) method)
    | .err er => .err er
    | .crash er => .crash er
  | t => .ok (.mk t.kindString t.typeName .noElem .nil t method)

def docFieldsOf (fs : GoFields) (method : String) : GoResult DocFields :=
  match fs with
  | .nil => .ok .nil
  | .cons (.mk nm anon jt mt ft) rest =>
    if goFound (.mk nm anon jt mt ft) method then
      if anon then
        match NewDocFields ft method with
        | .ok inner =>
          match docFieldsOf rest method with
          | .ok r => .ok (inner.append r)
          | .err e => .err e
          | .crash e => .crash e
        | .err e => .err e
        | .crash e => .crash e
      else
        match NewDocType ft method with
        | .ok d =>
          match docFieldsOf rest method with
          | .ok r => .ok (.cons (.mk nm d (.mk nm anon jt mt ft)) r)
          | .err e => .err e
          | .crash e => .crash e
        | .err e => .err e
        | .crash e => .crash e
    else docFieldsOf rest method

def NewDocFields (typ : GoType) (method : String) : GoResult DocFields :=
  match typ with
  | .structT _ fs => docFieldsOf fs method
  | t => .crash ("reflect: NumField of non-struct type " ++ t.typeName)
end

/-! ## JSON values

Shape of the data produced by decoding a JSON document into
`map[string]interface{}` (part_004 line 540): null, booleans, numbers,
strings, `[]interface{}` arrays and `map[string]interface{}` objects.  The
object is modelled as an association list; Go's map has unique keys and
random iteration order, but every operation the source performs on it
(key lookup, per-entry filtering, deletion of the entry under the current
key) is order-insensitive, entry-wise, so a list model is faithful. -/

mutual
inductive JSONValue where
  | null
  | boolV (b : Bool)
  | numV (n : Int)
  | strV (s : String)
  | arrV (xs : JSONArr)
  | objV (kvs : JSONObj)
inductive JSONArr where
  | nil
  | cons (hd : JSONValue) (tl : JSONArr)
inductive JSONObj where
  | nil
  | cons (k : String) (v : JSONValue) (tl : JSONObj)
end

/-- First-occurrence key lookup in a decoded JSON object. -/
def JSONObj.lookup : JSONObj → String → Option JSONValue
  | .nil, _ => none
  | .cons k v rest, n => if k = n then some v else rest.lookup n

/-- Go panic message for `value.(map[string]interface{})` on a non-map value. -/
def assertObjMsg : String :=
  "interface conversion: interface {} is not map[string]interface {}"

/-- Go panic message for `value.([]interface{})` on a non-slice value. -/
def assertArrMsg : String :=
  "interface conversion: interface {} is not []interface {}"

/-! ## The request-body filter (src/unnamed/part_004 lines 563-587)

`filterJSON(typ, m, method)` builds the descriptor for `(typ, method)` and
walks the entries of `m`:
  * a key with no matching descriptor field is deleted;
  * a key whose field descriptor has a non-empty field list is asserted to
    hold a JSON object (an unchecked type assertion: a panic on anything
    else) and filtered recursively;
  * otherwise, if the field descriptor's `Elem` is non-nil with a
    non-empty field list, the value is asserted to be an array of objects
    and each element is filtered recursively;
  * any other entry is kept untouched.
The recursive `filterJSON` calls are inlined below (`NewDocType` followed
by the entry walk) so that the recursion is structural on the JSON value. -/

mutual
def filterEntries (d : DocType) (m : JSONObj) (method : String) : GoResult JSONObj :=
  match m with
  | .nil => .ok .nil
  | .cons k v rest =>
    match d.GetField k with
    | none => filterEntries d rest method
    | some f =>
      match f.Type.Fields with
      | .cons _ _ =>
        match v with
        | .objV kvs =>
          match NewDocType f.Type.typ method with
          | .ok d2 =>
            match filterEntries d2 kvs method with
            | .ok kvs2 =>
              match filterEntries d rest method with
              | .ok r => .ok (.cons k (.objV kvs2) r)
              | .err e => .err e
              | .crash e => .crash e
            | .err e => .err e
            | .crash e => .crash e
          | .err e => .err e
          | .crash e => .crash e
        | _ => .crash assertObjMsg
      | .nil =>
        match f.Type.Elem with
        | .someElem el =>
          match el.Fields with
          | .cons _ _ =>
            match v with
            | .arrV xs =>
              match filterElems el.typ xs method with
              | .ok xs2 =>
                match filterEntries d rest method with
                | .ok r => .ok (.cons k (.arrV xs2) r)
                | .err e => .err e
                | .crash e => .crash e
              | .err e => .err e
              | .crash e => .crash e
            | _ => .crash assertArrMsg
          | .nil =>
            match filterEntries d rest method with
            | .ok r => .ok (.cons k v r)
            | .err e => .err e
            | .crash e => .crash e
        | .noElem =>
          match filterEntries d rest method with
          | .ok r => .ok (.cons k v r)
          | .err e => .err e
          | .crash e => .crash e

def filterElems (t : GoType) (xs : JSONArr) (method : String) : GoResult JSONArr :=
  match xs with
  | .nil => .ok .nil
  | .cons v rest =>
    match v with
    | .objV kvs =>
      match NewDocType t method with
      | .ok d2 =>
        match filterEntries d2 kvs method with
        | .ok kvs2 =>
          match filterElems t rest method with
          | .ok r => .ok (.cons (.objV kvs2) r)
          | .err e => .err e
          | .crash e => .crash e
        | .err e => .err e
        | .crash e => .crash e
      | .err e => .err e
      | .crash e => .crash e
    | _ => .crash assertObjMsg
end

/-- Mirror of `filterJSON` (src/unnamed/part_004 lines 563-587). -/
def filterJSON (typ : GoType) (m : JSONObj) (method : String) : GoResult JSONObj :=
  match NewDocType typ method with
  | .ok docType => filterEntries docType m method
  | .err e => .err e
  | .crash e => .crash e

/-! ## Typed Go values and `encoding/json` decoding

`copyJSON` finishes by re-encoding the filtered map and decoding it into
the typed destination with `json.Unmarshal` (part_004 lines 556-560).  The
destination starts as the zero value of its type; `GoValue` models the
populated result.  The model of `json.Unmarshal` below short-circuits at
the first type mismatch where Go would record the error and keep going —
both return a non-nil error, and no claim observes the partially
populated destination of a failed decode. -/

mutual
inductive GoValue where
  | strV (s : String)
  | boolV (b : Bool)
  | intV (n : Int)
  | keyV (s : String)
  | nilV
  | sliceV (xs : GoValues)
  | mapV (kvs : GoKVs)
  | structV (fields : GoKVs)
inductive GoValues where
  | nil
  | cons (hd : GoValue) (tl : GoValues)
inductive GoKVs where
  | nil
  | cons (k : String) (v : GoValue) (tl : GoKVs)
end

/-- First-occurrence field lookup in a struct value's field list. -/
def GoKVs.lookup : GoKVs → String → Option GoValue
  | .nil, _ => none
  | .cons k v rest, n => if k = n then some v else rest.lookup n

mutual
def zeroValue : GoType → GoValue
  | .stringT => .strV ""
  | .boolT => .boolV false
  | .intT => .intV 0
  | .ptrKey => .nilV
  | .ptrOther _ => .nilV
  | .sliceT _ => .nilV
  | .mapT _ => .nilV
  | .structT _ fs => .structV (zeroFields fs)
def zeroFields : GoFields → GoKVs
  | .nil => .nil
  | .cons (.mk nm _ _ _ ft) rest => .cons nm (zeroValue ft) (zeroFields rest)
end

/-- Element-wise decode of a JSON array with a given element decoder. -/
def decodeArr (f : JSONValue → GoResult GoValue) : JSONArr → GoResult GoValues
  | .nil => .ok .nil
  | .cons v rest =>
    match f v with
    | .ok gv =>
      match decodeArr f rest with
      | .ok r => .ok (.cons gv r)
      | .err e => .err e
      | .crash e => .crash e
    | .err e => .err e
    | .crash e => .crash e

/-- Entry-wise decode of a JSON object with a given value decoder. -/
def decodeObjWith (f : JSONValue → GoResult GoValue) : JSONObj → GoResult GoKVs
  | .nil => .ok .nil
  | .cons k v rest =>
    match f v with
    | .ok gv =>
      match decodeObjWith f rest with
      | .ok r => .ok (.cons k gv r)
      | .err e => .err e
      | .crash e => .crash e
    | .err e => .err e
    | .crash e => .crash e

/-- Wire key under which `encoding/json` looks a field up: the `json` tag
name when present, else the field name.  Tag option suffixes (",omitempty"
and friends) do not occur in the modelled structs. -/
def GoField.wireName (f : GoField) : String :=
  if f.jsonTag = "" ∨ f.jsonTag = "-" then f.name else f.jsonTag

/-! Model of `json.Unmarshal` into a fresh zero value of the destination
type.  JSON `null` is a decode no-op and leaves the zero value; a field
with `json` tag `-` is never populated; an anonymous (embedded) struct
field is decoded against the same object, which is `encoding/json`'s field
promotion (the shadowing tie-breaks it applies when an outer and an inner
field share a wire name do not arise in the claims, and the spec declares
such collisions undefined).  Decoding into a pointer type other than the
designated key type does not occur in any claim and is a decode error in
the model. -/

mutual
def decodeTyped (t : GoType) (v : JSONValue) : GoResult GoValue :=
  match t, v with
  | t, .null => .ok (zeroValue t)
  | .stringT, .strV s => .ok (.strV s)
  | .boolT, .boolV b => .ok (.boolV b)
  | .intT, .numV n => .ok (.intV n)
  | .ptrKey, .strV s => .ok (.keyV s)
  | .sliceT e, .arrV xs =>
    match decodeArr (decodeTyped e) xs with
    | .ok gvs => .ok (.sliceV gvs)
    | .err e => .err e
    | .crash e => .crash e
  | .mapT w, .objV kvs =>
    match decodeObjWith (decodeTyped w) kvs with
    | .ok gkvs => .ok (.mapV gkvs)
    | .err e => .err e
    | .crash e => .crash e
  | .structT _ fs, .objV kvs =>
    match decodeStructFields fs kvs with
    | .ok gkvs => .ok (.structV gkvs)
    | .err e => .err e
    | .crash e => .crash e
  | t, _ => .err ("json: cannot unmarshal value into Go value of type " ++ t.typeName)

def decodeStructFields (fs : GoFields) (kvs : JSONObj) : GoResult GoKVs :=
  match fs with
  | .nil => .ok .nil
  | .cons (.mk nm anon jt mt ft) rest =>
    let decoded : GoResult GoValue :=
      if anon then decodeTyped ft (.objV kvs)
      else if jt = "-" then .ok (zeroValue ft)
      else
        match kvs.lookup (GoField.wireName (.mk nm anon jt mt ft)) with
        | some w => decodeTyped ft w
        | none => .ok (zeroValue ft)
    match decoded with
    | .ok gv =>
      match decodeStructFields rest kvs with
      | .ok r => .ok (.cons nm gv r)
      | .err e => .err e
      | .crash e => .crash e
    | .err e => .err e
    | .crash e => .crash e
end

/-- Decode of the request body into the untyped `map[string]interface{}`
(part_004 lines 540-542): any JSON object succeeds, JSON `null` is a no-op
that leaves the preallocated empty map, anything else is a decode error. -/
def decodeBodyToMap : JSONValue → GoResult JSONObj
  | .objV kvs => .ok kvs
  | .null => .ok .nil
  | _ => .err "json: cannot unmarshal value into Go value of type map[string]interface {}"

/-- Mirror of `copyJSON` (src/unnamed/part_004 lines 539-561).  The Go
function takes a pointer to the destination; `destType` here is the
pointee type, so the `reflect.Ptr` check is implicit and the
`reflect.Struct` check on the pointee remains.  The re-encode step
(`json.Marshal` of the filtered map, which always succeeds on
JSON-decoded data and merely sorts keys) followed by `json.Unmarshal` is
the typed decode of the filtered object; the typed decode looks keys up
by name, so the key ordering is immaterial. -/
def copyJSON (destType : GoType) (body : JSONValue) (method : String) : GoResult GoValue :=
  match decodeBodyToMap body with
  | .ok decoded =>
    match destType with
    | .structT n fs =>
      match filterJSON (.structT n fs) decoded method with
      | .ok filtered => decodeTyped (.structT n fs) (.objV filtered)
      | .err e => .err e
      | .crash e => .crash e
    | _ => .err "can only copy to pointer to struct"
  | .err e => .err e
  | .crash e => .crash e

/-! ## Spec-side definitions

The following definitions follow the specification's words, not the code;
theorems compare the code's behaviour against them.  Spec §3: a field's
`methodTags` is "the set of methods for which this field is
writable/visible".  Spec §4.1: "a field is included for method `M` iff its
method-tag set contains `M`; for the pseudo-method `read` (no method /
GET), inclusion is controlled by an explicit opt-out marker". -/

/-- Method-tag set of a field (spec §3). -/
def methodTagSet (f : GoField) : List String :=
  goSplitComma f.methodsTag

/-- Spec-side visibility of a field for a method (spec §4.1). -/
def specVisible (f : GoField) (method : String) : Bool :=
  if method = "GET" ∨ method = "" then decide (f.jsonTag ≠ "-")
  else decide (method ∈ methodTagSet f)

/-- Spec-side name list of the fields visible for a method, in declaration
order. -/
def visibleNames : GoFields → String → List String
  | .nil, _ => []
  | .cons f rest, method =>
    if specVisible f method then f.name :: visibleNames rest method
    else visibleNames rest method

/-! Spec-side flattened visible field set for a method: `(name, type)`
pairs in declaration order, anonymous sub-structs hoisted transparently
(spec §3).  An anonymous field of non-struct type contributes nothing
here (the code panics on it; the theorems using this definition assume
descriptor construction succeeded). -/
mutual
def specFields (t : GoType) (method : String) : List (String × GoType) :=
  match t with
  | .structT _ fs => specFieldsOf fs method
  | _ => []
def specFieldsOf (fs : GoFields) (method : String) : List (String × GoType) :=
  match fs with
  | .nil => []
  | .cons (.mk nm anon jt mt ft) rest =>
    if specVisible (.mk nm anon jt mt ft) method then
      (if anon then specFields ft method else [(nm, ft)]) ++ specFieldsOf rest method
    else specFieldsOf rest method
end

/-- First-occurrence lookup in a `(name, type)` pair list. -/
def lookupFieldType : List (String × GoType) → String → Option GoType
  | [], _ => none
  | (n, t) :: rest, k => if n = k then some t else lookupFieldType rest k

/-- True when no struct type occurs anywhere inside the type. -/
def structFree : GoType → Bool
  | .structT _ _ => false
  | .sliceT e => structFree e
  | .mapT w => structFree w
  | _ => true

/-! Pre-stripping a payload of all keys that do not name a field visible
for the method, recursively at every level, following the spec's words
("decoding a payload pre-stripped of non-M keys", spec §8; "recursively
prune any key from the untyped mapping not present as a field name in the
descriptor", spec §4.3).  Values whose destination type is not a struct,
slice or map are untouched; values of the wrong shape for their
destination type are left as they are (the subsequent typed decode
rejects them). -/
mutual
def preStrip (t : GoType) (method : String) (v : JSONValue) : JSONValue :=
  match t, v with
  | .structT _ fs, .objV kvs => .objV (preStripObj (specFieldsOf fs method) method kvs)
  | .sliceT e, .arrV xs => .arrV (preStripArr e method xs)
  | .mapT w, .objV kvs => .objV (preStripMap w method kvs)
  | _, v => v
def preStripObj (flds : List (String × GoType)) (method : String) (kvs : JSONObj) : JSONObj :=
  match kvs with
  | .nil => .nil
  | .cons k v rest =>
    match lookupFieldType flds k with
    | some ty => .cons k (preStrip ty method v) (preStripObj flds method rest)
    | none => preStripObj flds method rest
def preStripArr (e : GoType) (method : String) (xs : JSONArr) : JSONArr :=
  match xs with
  | .nil => .nil
  | .cons v rest => .cons (preStrip e method v) (preStripArr e method rest)
def preStripMap (w : GoType) (method : String) (kvs : JSONObj) : JSONObj :=
  match kvs with
  | .nil => .nil
  | .cons k v rest => .cons k (preStrip w method v) (preStripMap w method rest)
end

/-! Holds when the filter reaches every struct nested in the type: every
visible struct-typed field (and every visible slice-of-struct field's
element type) has at least one visible field of its own, recursively, and
no struct hides inside a visible map-typed, slice-of-non-struct-typed or
deeper field, where `filterJSON` keeps values raw.  This is the exact
proviso under which decode-filter-re-encode-decode coincides with
decoding the pre-stripped payload. -/
mutual
def fullyFiltered : GoType → String → Bool
  | .structT _ fs, method => ffFields fs method
  | _, _ => true
def ffFields : GoFields → String → Bool
  | .nil, _ => true
  | .cons (.mk nm anon jt mt ft) rest, method =>
    (if specVisible (.mk nm anon jt mt ft) method then
      (if anon then fullyFiltered ft method else fieldTypeOK ft method)
     else true)
    && ffFields rest method
def fieldTypeOK : GoType → String → Bool
  | .structT _ fs, method => !(specFieldsOf fs method).isEmpty && ffFields fs method
  | .sliceT (.structT _ fs), method => !(specFieldsOf fs method).isEmpty && ffFields fs method
  | .sliceT e, _ => structFree e
  | .mapT w, _ => structFree w
  | _, _ => true
end

/-! ## Schema projection (src/unnamed/part_008 lines 420-478)

`JSONSchema` mirrors the Go struct with `Type`, `Properties`, an optional
`AdditionalProperties`, an optional `Items` and a `Title`; the
`Properties` map is modelled as an association list in field order (the
Go map is keyed by field name). -/

mutual
inductive JSONSchema where
  | mk (schemaType : String) (properties : SchemaProps) (additionalProperties : SchemaOpt)
       (items : SchemaOpt) (title : String)
inductive SchemaProps where
  | nil
  | cons (k : String) (s : JSONSchema) (tl : SchemaProps)
inductive SchemaOpt where
  | noS
  | someS (s : JSONSchema)
end

def JSONSchema.schemaType : JSONSchema → String
  | .mk t _ _ _ _ => t

def JSONSchema.title : JSONSchema → String
  | .mk _ _ _ _ ti => ti

/-- Mirror of `DocField.ToJSONSchema`'s `typ.Title = d.Name`
(src/unnamed/part_008 lines 485-492). -/
def JSONSchema.withTitle : JSONSchema → String → JSONSchema
  | .mk t p a i _, ti => .mk t p a i ti

def SchemaProps.append : SchemaProps → SchemaProps → SchemaProps
  | .nil, r => r
  | .cons k s tl, r => .cons k s (tl.append r)

/-! `DocType.ToJSONSchema` (src/unnamed/part_008 lines 420-478) switches on
`d.typ.Kind()` and otherwise reads only `d.method`, `d.Fields` and
`d.Elem`.  `NewDocType` always sets `typ` and `method` to its arguments,
`Fields` to the field walk of a struct `typ` and `Elem` to the descriptor
of a slice's element type, and every descriptor the sources project was
built by `NewDocType` (including the fresh `NewDocType(d.typ.Elem(),
d.method)` in the map case and the per-field descriptors stored by
`NewDocFields`).  The projection is therefore recast below as a function
of `(typ, method)`, re-walking a struct's fields exactly as
`NewDocFields` does — including the flattening of anonymous fields and
the `reflect` panic on an anonymous non-struct field — and the Go method
becomes the wrapper reading `d.typ` and `d.method`.  The designated
`time.Time` struct and the kinds outside the modelled universe
(`Float64`, the untranslatable default case for chan/func/uint) do not
occur in the claims. -/

mutual
def toJSONSchemaT (t : GoType) (method : String) : GoResult JSONSchema :=
  match t with
  | .ptrKey => .ok (.mk "string" .nil .noS .noS "")
  | .ptrOther n => .err ("Untranslatable Go Type " ++ n)
  | .mapT w =>
    match toJSONSchemaT w method with
    | .ok vs => .ok (.mk "object" .nil (.someS vs) .noS "")
    | .err e => .err e
    | .crash e => .crash e
  | .boolT => .ok (.mk "boolean" .nil .noS .noS "")
  | .stringT => .ok (.mk "string" .nil .noS .noS "")
  | .structT _ fs =>
    match schemaPropsOf fs method with
    | .ok props => .ok (.mk "object" props .noS .noS "")
    | .err e => .err e
    | .crash e => .crash e
  | .sliceT e =>
    match toJSONSchemaT e method with
    | .ok es => .ok (.mk "array" .nil .noS (.someS es) "")
    | .err er => .err er
    | .crash er => .crash er
  | .intT => .ok (.mk "integer" .nil .noS .noS "")

def schemaPropsOf (fs : GoFields) (method : String) : GoResult SchemaProps :=
  match fs with
  | .nil => .ok .nil
  | .cons (.mk nm anon jt mt ft) rest =>
    if goFound (.mk nm anon jt mt ft) method then
      if anon then
        match ft with
        | .structT _ gs =>
          match schemaPropsOf gs method with
          | .ok inner =>
            match schemaPropsOf rest method with
            | .ok r => .ok (inner.append r)
            | .err e => .err e
            | .crash e => .crash e
          | .err e => .err e
          | .crash e => .crash e
        | t => .crash ("reflect: NumField of non-struct type " ++ t.typeName)
      else
        match toJSONSchemaT ft method with
        | .ok s =>
          match schemaPropsOf rest method with
          | .ok r => .ok (.cons nm (s.withTitle nm) r)
          | .err e => .err e
          | .crash e => .crash e
        | .err e => .err e
        | .crash e => .crash e
    else schemaPropsOf rest method
end

/-- Mirror of the Go method `DocType.ToJSONSchema`
(src/unnamed/part_008 lines 420-478); see the comment above. -/
def DocType.ToJSONSchema (d : DocType) : GoResult JSONSchema :=
  toJSONSchemaT d.typ d.method

/-! ## Links (src/unnamed/part_004 lines 194-359)

`Link` carries the unexported `baseScheme`, `baseHost` and
`linkDecorators` plus the exported `Rel`, `Route`, `RouteParams`,
`QueryParams`, `Method` and `Type` fields.  A decorator receives the link
and may rewrite the URL or fail; since a Lean structure cannot mention
its own type in a function field, the decorator receives the link's plain
data (`LinkData`).  `TargetType` is the nullable `reflect.Type` field that
Go names `Type` (a keyword here). -/

structure URL where
  scheme : String
  host : String
  path : String
  query : String
deriving DecidableEq, Repr

/-- Rendering of `url.URL.String()` for the URLs the model builds (scheme
and host are always set by `Request.NewLink` before rendering). -/
def URL.render (u : URL) : String :=
  u.scheme ++ "://" ++ u.host ++ u.path ++ (if u.query = "" then "" else "?" ++ u.query)

structure LinkData where
  Rel : String
  Route : String
  RouteParams : List String
  QueryParams : List (String × String)
  Method : String
  TargetType : Option GoType
  baseScheme : String
  baseHost : String

/-- Model of the `LinkDecorator` function type (part_004 line 194); the Go
decorator mutates the `*url.URL` in place and may return an error. -/
def LinkDecorator : Type := LinkData → URL → Except String URL

structure Link extends LinkData where
  linkDecorators : List LinkDecorator

/-- Modelled from the spec: the external router capability of §6
("resolve name + params → URL").  A router is the finite map from
registered route names to path templates; resolving an unregistered name
yields a descriptive error naming the route, and path-parameter
substitution is collapsed (no claim depends on the path's shape). -/
def Router : Type := List (String × String)

def lookupRoute : Router → String → Option String
  | [], _ => none
  | (n, p) :: rest, k => if n = k then some p else lookupRoute rest k

/-- Modelled from the spec: `router.Get(name).URL(params...)` against the
router capability. -/
def routerURL (ro : Router) (name : String) (_params : List String) : Except String URL :=
  match lookupRoute ro name with
  | none => .error ("no route registered with name " ++ name)
  | some path => .ok { scheme := "", host := "", path := path, query := "" }

/-- Model of `url.Values.Encode()` on the ordered pair list (Go sorts by
key; no modelled claim reads the query string back). -/
def encodeQuery : List (String × String) → String
  | [] => ""
  | [(k, v)] => k ++ "=" ++ v
  | (k, v) :: rest => k ++ "=" ++ v ++ "&" ++ encodeQuery rest

/-- Sequential application of the link decorators (part_004 lines
236-240): each may rewrite the URL, the first failure aborts. -/
def runDecorators (l : LinkData) : List LinkDecorator → URL → Except String URL
  | [], u => .ok u
  | d :: rest, u =>
    match d l u with
    | .ok u2 => runDecorators l rest u2
    | .error e => .error e

/-- Mirror of `Link.Resolve` (src/unnamed/part_004 lines 228-242): resolve
the named route, overwrite query, scheme and host, run the decorators,
render.  The package-global `router` is passed explicitly. -/
def Link.Resolve (l : Link) (ro : Router) : GoResult String :=
  match routerURL ro l.Route l.RouteParams with
  | .error e => .err e
  | .ok u =>
    match runDecorators l.toLinkData l.linkDecorators
        { u with query := encodeQuery l.QueryParams,
                 scheme := l.baseScheme, host := l.baseHost } with
    | .error e => .err e
    | .ok u2 => .ok u2.render

/-- Wire form of a marshalled link: Go's anonymous struct with `Rel`,
`URL`, `Method` and the `JSONSchema *JSONSchema` pointer field carrying
`json:",omitempty"` (src/unnamed/part_004 lines 337-342); `none` is the
nil pointer, omitted from the JSON text. -/
structure LinkJSON where
  Rel : String
  URLStr : String
  MethodStr : String
  Schema : Option JSONSchema

/-- Mirror of `Link.MarshalJSON` (src/unnamed/part_004 lines 328-359). -/
def Link.MarshalJSON (l : Link) (ro : Router) : GoResult LinkJSON :=
  match l.Resolve ro with
  | .err e => .err e
  | .crash e => .crash e
  | .ok u =>
    let method := if l.Method = "" then "GET" else l.Method
    if l.Method = "POST" ∨ l.Method = "PUT" then
      match l.TargetType with
      | some ty =>
        match NewDocType ty l.Method with
        | .ok docType =>
          match docType.ToJSONSchema with
          | .ok schema => .ok ⟨l.Rel, u, method, some schema⟩
          | .err e => .err e
          | .crash e => .crash e
        | .err e => .err e
        | .crash e => .crash e
      | none => .ok ⟨l.Rel, u, method, none⟩
    else .ok ⟨l.Rel, u, method, none⟩

/-! ## Link ordering and item rendering (src/unnamed/part_004 lines 198-213, 639-705) -/

/-- Mirror of `Links.Less` (src/unnamed/part_004 lines 202-209). -/
def Links.Less (a b : Link) : Bool :=
  if a.Method == b.Method then decide (a.Rel < b.Rel)
  else (a.Method == "GET" || a.Method == "") && !(b.Method == "GET" || b.Method == "")

/-- True when the link counts as a GET link for the ordering (method
`GET` or empty). -/
def isGetLike (l : Link) : Bool :=
  l.Method == "GET" || l.Method == ""

/-- Item: the presentation wrapper.  `HTMLNode` reads `Name` and `Links`
for the parts the claims concern; `Properties` and `Desc` feed other
sections of the rendered document and never influence the navigation
block. -/
structure Item where
  Name : String
  Links : List Link

/-- The non-self links, in insertion order: the loop of `Item.HTMLNode`
(src/unnamed/part_004 lines 640-652) separates the link with `Rel ==
"self"` and appends the rest to `restLinks`. -/
def Item.restLinks (i : Item) : List Link :=
  i.Links.filter (fun l => !(l.Rel == "self"))

/-- Inner loop of Go's insertion sort (`func insertionSort` in the
standard library's sort.go, `for j := i; j > a && data.Less(j, j-1); j--`):
the new element `x` moves left past each neighbour `y` it compares
strictly below and stops at the first neighbour it does not.  The
processed prefix is given in reversed order (head = rightmost element). -/
def goInsertRev (x : Link) : List Link → List Link
  | [] => [x]
  | y :: rev => if Links.Less x y then y :: goInsertRev x rev else x :: y :: rev

/-- Outer loop of Go's insertion sort: fold each remaining element into
the reversed processed prefix, then restore the order. -/
def insertionSortRev : List Link → List Link → List Link
  | acc, [] => acc.reverse
  | acc, x :: rest => insertionSortRev (goInsertRev x acc) rest

/-- Modelled from the spec: the external `sort.Sort(restLinks)` call in
`Item.HTMLNode` (src/unnamed/part_004 line 653).  `Links.Less` is not a
strict weak ordering — two links whose `Method` strings differ are
mutually incomparable unless exactly one of them counts as a GET link —
so the Go standard library documents nothing about the result beyond its
being a permutation of the input.  The call is nevertheless
deterministic: `sort.Sort` runs `quickSort`, which finishes every range
of at most twelve elements with a full insertion-sort pass over that
range, and for at most six elements the whole call is exactly that pass.
The model is this insertion sort; for navigation blocks of up to six
non-self links it reproduces the rendered order exactly, and the
properties proved about it below are proved for the pass applied to an
arbitrary pre-state, so they also hold of the real output for up to
twelve links (where a deterministic gap-6 pre-pass precedes the same
full-range insertion pass).  Beyond twelve links Go leaves the order
unspecified for a comparator that is not a strict weak ordering. -/
def insertionSortGo (xs : List Link) : List Link :=
  insertionSortRev [] xs

/-- The order in which the navigation block of the rendered item lists
the non-self links (`Item.HTMLNode`, src/unnamed/part_004 lines 653 and
690-698), per the sort model above. -/
def Item.navLinks (i : Item) : List Link :=
  insertionSortGo i.restLinks

/-- Alphabetical ordering of a whole link list by relation name, as the
claim asserts for the navigation block. -/
def alphaByRel (ls : List Link) : Prop :=
  ls.Pairwise (fun a b => a.Rel ≤ b.Rel)

/-! ## Resource handler validation (src/resource.go lines 45-100, 235-267)

`validateResourceFunc` inspects the reflection type of a bound handler:
it must be a func with exactly two parameters implementing
`ResponseWriter` and `Request` and two results implementing `Itemer` and
`error`; the first result type, stripped of pointers, is the resource's
underlying type, and it must agree with the type derived from the
previously validated handlers.  `HandlerSig` carries exactly these
reflection facts. -/

/-! Equality test on Go types, modelling `reflect.Type` identity
comparison (`needType != returnType`, src/resource.go line 263). -/
mutual
def beqGoType : GoType → GoType → Bool
  | .stringT, .stringT => true
  | .boolT, .boolT => true
  | .intT, .intT => true
  | .ptrKey, .ptrKey => true
  | .ptrOther a, .ptrOther b => a == b
  | .sliceT a, .sliceT b => beqGoType a b
  | .mapT a, .mapT b => beqGoType a b
  | .structT na fa, .structT nb fb => na == nb && beqGoFields fa fb
  | _, _ => false
def beqGoFields : GoFields → GoFields → Bool
  | .nil, .nil => true
  | .cons a as, .cons b bs => beqGoField a b && beqGoFields as bs
  | _, _ => false
def beqGoField : GoField → GoField → Bool
  | .mk n a j m t, .mk n' a' j' m' t' =>
    n == n' && a == a' && j == j' && m == m' && beqGoType t t'
end

/-- A possibly pointer-wrapped return type, as seen by reflection. -/
inductive RetType where
  | base (t : GoType)
  | ptr (p : RetType)

/-- Mirror of the pointer-stripping loop (src/resource.go lines 259-262). -/
def stripPtr : RetType → GoType
  | .base t => t
  | .ptr p => stripPtr p

/-- Reflection facts of a bound handler function's type, as read by
`validateResourceFunc`: whether it is a func, its in/out arity, whether
the parameter and result types implement the required interfaces, and
the first result type. -/
structure HandlerSig where
  isFunc : Bool
  numIn : Nat
  in0ResponseWriter : Bool
  in1Request : Bool
  numOut : Nat
  out0Itemer : Bool
  out1Error : Bool
  out0 : RetType

/-- Mirror of `validateResourceFunc` (src/resource.go lines 235-267); the
returned `reflect.Value` is not modelled, only the derived return type.
Each `panic(fmt.Errorf(...))` is a `crash`; the `%#v` renderings of the
offending function value are not reproduced, the discriminating suffix of
each message is. -/
def validateResourceFunc (f : HandlerSig) (needType : Option GoType) : GoResult GoType :=
  if !f.isFunc then .crash "isn't a func"
  else if !(f.numIn == 2) then .crash "isn't a func with two params"
  else if !f.in0ResponseWriter then .crash "isn't a func with a ResponseWriter as its first param"
  else if !f.in1Request then .crash "isn't a func with a Request as its second param"
  else if !(f.numOut == 2) then .crash "isn't a func with two return values"
  else if !f.out0Itemer then .crash "isn't a func with Itemer as its first return value"
  else if !f.out1Error then .crash "isn't a func with error as its second return value"
  else
    let returnType := stripPtr f.out0
    match needType with
    | some t =>
      if beqGoType t returnType then .ok returnType
      else .crash (t.typeName ++ " and " ++ returnType.typeName ++ " not the same resource type")
    | none => .ok returnType

/-- Resource binding: the four nullable handler slots
(src/resource.go lines 32-43); the path fields and listers feed route
registration, which no modelled claim reads. -/
structure Resource where
  Create : Option HandlerSig
  Update : Option HandlerSig
  Delete : Option HandlerSig
  Load : Option HandlerSig

/-- Mirror of `createRoute`'s validation step (src/resource.go lines
45-48): validate the handler against the type required so far and derive
the resource type; the route pattern registration that follows has no
bearing on the modelled claims. -/
def createRoute (f : HandlerSig) (rType : Option GoType) : GoResult GoType :=
  validateResourceFunc f rType

/-- One `if re.X != nil { rType = createRoute(ro, re, X, rType) }`
statement of `HandleResource`. -/
def stepResource (h : Option HandlerSig) (rT : Option GoType) : GoResult (Option GoType) :=
  match h with
  | some f =>
    match createRoute f rT with
    | .ok t => .ok (some t)
    | .err e => .err e
    | .crash e => .crash e
  | none => .ok rT

/-- Mirror of `HandleResource` (src/resource.go lines 82-100): thread the
derived resource type through the present handlers in the order Create,
Update, Delete, Load; as in the source, the type returned by the Load
route does not update the threaded variable.  A `crash` models the panic
that aborts registration. -/
def HandleResource (re : Resource) : GoResult (Option GoType) :=
  match stepResource re.Create none with
  | .ok r1 =>
    match stepResource re.Update r1 with
    | .ok r2 =>
      match stepResource re.Delete r2 with
      | .ok r3 =>
        match stepResource re.Load r3 with
        | .ok _ => .ok r3
        | .err e => .err e
        | .crash e => .crash e
      | .err e => .err e
      | .crash e => .crash e
    | .err e => .err e
    | .crash e => .crash e
  | .err e => .err e
  | .crash e => .crash e

/-! ## Bridging lemmas: the code's `found` computation vs the spec's
visibility predicate -/

/-! Step equations for `docFieldsOf`, used by the inductions below. -/

theorem docFieldsOf_nil (method : String) : docFieldsOf .nil method = .ok .nil := rfl

theorem docFieldsOf_cons_named (nm jt mt : String) (ft : GoType) (rest : GoFields)
    (method : String) :
    docFieldsOf (.cons (.mk nm false jt mt ft) rest) method =
      (if goFound (.mk nm false jt mt ft) method then
        match NewDocType ft method with
        | .ok d =>
          match docFieldsOf rest method with
          | .ok r => .ok (.cons (.mk nm d (.mk nm false jt mt ft)) r)
          | .err e => .err e
          | .crash e => .crash e
        | .err e => .err e
        | .crash e => .crash e
      else docFieldsOf rest method) := by
  rw [docFieldsOf]
  by_cases hg : goFound (.mk nm false jt mt ft) method <;> simp [hg]

theorem docFieldsOf_cons_anonStruct (nm jt mt sn : String) (gs : GoFields) (rest : GoFields)
    (method : String) :
    docFieldsOf (.cons (.mk nm true jt mt (.structT sn gs)) rest) method =
      (if goFound (.mk nm true jt mt (.structT sn gs)) method then
        match docFieldsOf gs method with
        | .ok inner =>
          match docFieldsOf rest method with
          | .ok r => .ok (inner.append r)
          | .err e => .err e
          | .crash e => .crash e
        | .err e => .err e
        | .crash e => .crash e
      else docFieldsOf rest method) := by
  rw [docFieldsOf]
  by_cases hg : goFound (.mk nm true jt mt (.structT sn gs)) method <;>
    simp [hg, NewDocFields]

theorem containsLoop_eq (l : List String) (m : String) :
    containsLoop l m = decide (m ∈ l) := by
  induction l with
  | nil => simp [containsLoop]
  | cons hd tl ih =>
    simp only [containsLoop, List.mem_cons]
    by_cases h : hd = m
    · subst h; simp
    · have : (hd == m) = false := by simp [h]
      simp [this, ih, h, Ne.symm h]

theorem goFound_eq_specVisible (f : GoField) (method : String) :
    goFound f method = specVisible f method := by
  unfold goFound specVisible methodTagSet
  by_cases h : method = "GET" ∨ method = ""
  · have hb : (method == "GET" || method == "") = true := by
      rcases h with h | h <;> simp [h]
    simp only [hb, if_true, h, if_pos]
    by_cases hj : f.jsonTag = "-" <;> simp [hj]
  · have hb : (method == "GET" || method == "") = false := by
      push_neg at h
      simp [h.1, h.2]
    simp only [hb, Bool.false_eq_true, if_false, h, if_neg, not_false_iff]
    exact containsLoop_eq _ _

/-- Struct-field lists with no anonymous (embedded) fields. -/
def GoFields.allNamed : GoFields → Bool
  | .nil => true
  | .cons f rest => !f.anonymous && rest.allNamed

theorem docFieldsOf_names_allNamed : ∀ (fs : GoFields) (method : String) (dfs : DocFields),
    fs.allNamed = true → docFieldsOf fs method = .ok dfs → dfs.names = visibleNames fs method
  | .nil, method, dfs, _, h => by
    simp only [docFieldsOf, GoResult.ok.injEq] at h
    subst h
    simp [visibleNames, DocFields.names]
  | .cons (.mk nm true jt mt ft) rest, method, dfs, hanon, h => by
    simp [GoFields.allNamed, GoField.anonymous] at hanon
  | .cons (.mk nm false jt mt ft) rest, method, dfs, hanon, h => by
    simp only [GoFields.allNamed, GoField.anonymous, Bool.not_false, Bool.true_and] at hanon
    rw [docFieldsOf_cons_named] at h
    rw [visibleNames, ← goFound_eq_specVisible]
    by_cases hv : goFound (.mk nm false jt mt ft) method
    · rw [if_pos hv] at h
      rw [if_pos hv]
      cases hnd : NewDocType ft method with
      | ok d =>
        rw [hnd] at h
        cases hrec : docFieldsOf rest method with
        | ok r =>
          rw [hrec] at h
          cases h
          simp only [DocFields.names, DocField.Name, GoField.name]
          rw [docFieldsOf_names_allNamed rest method r hanon hrec]
        | err e => rw [hrec] at h; cases h
        | crash e => rw [hrec] at h; cases h
      | err e => rw [hnd] at h; cases h
      | crash e => rw [hnd] at h; cases h
    · rw [if_neg hv] at h
      rw [if_neg hv]
      exact docFieldsOf_names_allNamed rest method dfs hanon h

/-- Claim C7 helper: the field walk of `NewDocType` on a struct. -/
theorem newDocType_struct_fields (n : String) (fs : GoFields) (method : String) (d : DocType)
    (h : NewDocType (.structT n fs) method = .ok d) :
    docFieldsOf fs method = .ok d.Fields := by
  rw [NewDocType] at h
  cases hfs : docFieldsOf fs method with
  | ok dfs => rw [hfs] at h; cases h; rfl
  | err e => rw [hfs] at h; cases h
  | crash e => rw [hfs] at h; cases h

/-- C7.  For a struct whose fields are all named (no embedded fields), the
descriptor built for `(type, method)` lists exactly the fields the spec
calls visible, in declaration order: for a non-read method `M` a field is
included iff its method-tag set contains `M`; for the read context (`GET`
or the empty method) it is included iff its `json` tag is not the opt-out
marker `-`. -/
theorem claim7_descriptor_field_visibility (n : String) (fs : GoFields) (method : String)
    (d : DocType) (hanon : fs.allNamed = true)
    (hok : NewDocType (.structT n fs) method = .ok d) :
    d.Fields.names = visibleNames fs method :=
  docFieldsOf_names_allNamed fs method d.Fields hanon (newDocType_struct_fields n fs method d hok)

/-- C7 witness: the `Inner` struct of src/goaeoas_test.go lines 10-17 at
method `POST` lists exactly its three POST-tagged fields, and at the read
context all six. -/
def testInner : GoFields :=
  .cons (.mk "POSTInteger" false "" "POST" .intT)
  (.cons (.mk "POSTString" false "" "POST" .stringT)
  (.cons (.mk "POSTIntSlice" false "" "POST" (.sliceT .intT))
  (.cons (.mk "PUTInteger" false "" "PUT" .intT)
  (.cons (.mk "PUTString" false "" "PUT" .stringT)
  (.cons (.mk "PUTIntSlice" false "" "PUT" (.sliceT .intT)) .nil)))))

def testInnerT : GoType := .structT "Inner" testInner

theorem claim7_witness :
    GoFields.allNamed testInner = true ∧
    ∃ d, NewDocType testInnerT "POST" = .ok d ∧
      d.Fields.names = visibleNames testInner "POST" ∧
      d.Fields.names = ["POSTInteger", "POSTString", "POSTIntSlice"] :=
  ⟨rfl, _, rfl, claim7_descriptor_field_visibility "Inner" testInner "POST" _ rfl rfl, rfl⟩

/-! ## Claim C8: flattening of embedded fields -/

def GoFields.toList : GoFields → List GoField
  | .nil => []
  | .cons f rest => f :: rest.toList

theorem DocFields.names_append : ∀ (a b : DocFields),
    (a.append b).names = a.names ++ b.names
  | .nil, b => rfl
  | .cons f rest, b => by
    simp [DocFields.append, DocFields.names, DocFields.names_append rest b]

/-- A visible named field's name appears in the field walk's output. -/
theorem name_mem_docFieldsOf : ∀ (fs : GoFields) (method : String) (dfs : DocFields)
    (g : GoField), docFieldsOf fs method = .ok dfs → g ∈ fs.toList →
    g.anonymous = false → specVisible g method = true → g.name ∈ dfs.names
  | .nil, method, dfs, g, _, hmem, _, _ => by simp [GoFields.toList] at hmem
  | .cons (.mk nm anon jt mt ft) rest, method, dfs, g, h, hmem, hgn, hgv => by
    simp only [GoFields.toList, List.mem_cons] at hmem
    rw [docFieldsOf] at h
    rcases hmem with hg | hg
    · subst hg
      simp only [GoField.anonymous] at hgn
      subst hgn
      rw [goFound_eq_specVisible, hgv, if_pos rfl] at h
      simp only [Bool.false_eq_true, if_false] at h
      cases hnd : NewDocType ft method with
      | ok dty =>
        rw [hnd] at h
        cases hrec : docFieldsOf rest method with
        | ok r =>
          rw [hrec] at h
          cases h
          simp [DocFields.names, DocField.Name, GoField.name]
        | err e => rw [hrec] at h; cases h
        | crash e => rw [hrec] at h; cases h
      | err e => rw [hnd] at h; cases h
      | crash e => rw [hnd] at h; cases h
    · by_cases hf : goFound (.mk nm anon jt mt ft) method
      · rw [if_pos hf] at h
        cases anon with
        | true =>
          simp only [if_true] at h
          cases hnf : NewDocFields ft method with
          | ok inner =>
            rw [hnf] at h
            cases hrec : docFieldsOf rest method with
            | ok r =>
              rw [hrec] at h
              cases h
              rw [DocFields.names_append]
              exact List.mem_append_right _
                (name_mem_docFieldsOf rest method r g hrec hg hgn hgv)
            | err e => rw [hrec] at h; cases h
            | crash e => rw [hrec] at h; cases h
          | err e => rw [hnf] at h; cases h
          | crash e => rw [hnf] at h; cases h
        | false =>
          simp only [Bool.false_eq_true, if_false] at h
          cases hnd : NewDocType ft method with
          | ok dty =>
            rw [hnd] at h
            cases hrec : docFieldsOf rest method with
            | ok r =>
              rw [hrec] at h
              cases h
              simp only [DocFields.names, DocField.Name, GoField.name, List.mem_cons]
              exact Or.inr (name_mem_docFieldsOf rest method r g hrec hg hgn hgv)
            | err e => rw [hrec] at h; cases h
            | crash e => rw [hrec] at h; cases h
          | err e => rw [hnd] at h; cases h
          | crash e => rw [hnd] at h; cases h
      · rw [if_neg hf] at h
        exact name_mem_docFieldsOf rest method dfs g h hg hgn hgv

/-- A visible named field of a visible embedded struct surfaces, by name,
in the parent's field walk. -/
theorem anon_flatten_mem : ∀ (fs : GoFields) (method : String) (dfs : DocFields)
    (anm ajt amt sn : String) (gs : GoFields) (g : GoField),
    docFieldsOf fs method = .ok dfs →
    (GoField.mk anm true ajt amt (.structT sn gs)) ∈ fs.toList →
    specVisible (.mk anm true ajt amt (.structT sn gs)) method = true →
    g ∈ gs.toList → g.anonymous = false → specVisible g method = true →
    g.name ∈ dfs.names
  | .nil, method, dfs, anm, ajt, amt, sn, gs, g, _, hmem, _, _, _, _ => by
    simp [GoFields.toList] at hmem
  | .cons (.mk nm anon jt mt ft) rest, method, dfs, anm, ajt, amt, sn, gs, g,
      h, hmem, hav, hg, hgn, hgv => by
    simp only [GoFields.toList, List.mem_cons] at hmem
    rw [docFieldsOf] at h
    rcases hmem with ha | ha
    · cases ha
      rw [goFound_eq_specVisible, hav, if_pos rfl, if_pos rfl] at h
      rw [show NewDocFields (.structT sn gs) method = docFieldsOf gs method from rfl] at h
      cases hgs : docFieldsOf gs method with
      | ok inner =>
        rw [hgs] at h
        cases hrec : docFieldsOf rest method with
        | ok r =>
          rw [hrec] at h
          cases h
          rw [DocFields.names_append]
          exact List.mem_append_left _
            (name_mem_docFieldsOf gs method inner g hgs hg hgn hgv)
        | err e => rw [hrec] at h; cases h
        | crash e => rw [hrec] at h; cases h
      | err e => rw [hgs] at h; cases h
      | crash e => rw [hgs] at h; cases h
    · by_cases hf : goFound (.mk nm anon jt mt ft) method
      · rw [if_pos hf] at h
        cases anon with
        | true =>
          simp only [if_true] at h
          cases hnf : NewDocFields ft method with
          | ok inner =>
            rw [hnf] at h
            cases hrec : docFieldsOf rest method with
            | ok r =>
              rw [hrec] at h
              cases h
              rw [DocFields.names_append]
              exact List.mem_append_right _
                (anon_flatten_mem rest method r anm ajt amt sn gs g hrec ha hav hg hgn hgv)
            | err e => rw [hrec] at h; cases h
            | crash e => rw [hrec] at h; cases h
          | err e => rw [hnf] at h; cases h
          | crash e => rw [hnf] at h; cases h
        | false =>
          simp only [Bool.false_eq_true, if_false] at h
          cases hnd : NewDocType ft method with
          | ok dty =>
            rw [hnd] at h
            cases hrec : docFieldsOf rest method with
            | ok r =>
              rw [hrec] at h
              cases h
              simp only [DocFields.names, DocField.Name, GoField.name, List.mem_cons]
              exact Or.inr (anon_flatten_mem rest method r anm ajt amt sn gs g hrec ha hav hg hgn hgv)
            | err e => rw [hrec] at h; cases h
            | crash e => rw [hrec] at h; cases h
          | err e => rw [hnd] at h; cases h
          | crash e => rw [hnd] at h; cases h
      · rw [if_neg hf] at h
        exact anon_flatten_mem rest method dfs anm ajt amt sn gs g h ha hav hg hgn hgv

/-- C8 counterexample.  An embedded struct that itself carries no
`methods` tag is not visible for POST, so its POST-tagged field `X` is
not flattened into the parent's POST field list at all: the parent's
descriptor for POST is empty, refuting the claim that the tagged fields
of every embedded sub-struct join the parent's visible set. -/
def c8Inner : GoFields := .cons (.mk "X" false "" "POST" .intT) .nil

def c8Outer : GoFields := .cons (.mk "In" true "" "" (.structT "In" c8Inner)) .nil

theorem claim8_counterexample :
    specVisible (.mk "X" false "" "POST" .intT) "POST" = true ∧
    ∃ d, NewDocType (.structT "Out" c8Outer) "POST" = .ok d ∧ d.Fields.names = [] :=
  ⟨rfl, _, rfl, rfl⟩

/-- C8 (amended).  For every struct with an embedded (anonymous)
sub-struct field that is itself visible for the method, the sub-struct's
visible named fields are flattened into the parent's descriptor
transparently: each such inner field name appears in the parent's field
list as a top-level name, with no nesting and no prefix (and hence is
matched as a top-level payload key by the filter). -/
theorem claim8_flatten_visible_embedded (n anm ajt amt sn : String) (fs gs : GoFields)
    (method : String) (d : DocType) (g : GoField)
    (hok : NewDocType (.structT n fs) method = .ok d)
    (hmem : (GoField.mk anm true ajt amt (.structT sn gs)) ∈ fs.toList)
    (hvis : specVisible (.mk anm true ajt amt (.structT sn gs)) method = true)
    (hg : g ∈ gs.toList) (hgn : g.anonymous = false) (hgv : specVisible g method = true) :
    g.name ∈ d.Fields.names :=
  anon_flatten_mem fs method d.Fields anm ajt amt sn gs g
    (newDocType_struct_fields n fs method d hok) hmem hvis hg hgn hgv

/-- C8 witness: the `Outer` struct of src/goaeoas_test.go lines 37-50
embeds `Inner2` with tag `methods:"POST"`; its field `POSTInteger2`
surfaces as a top-level name of `Outer`'s POST descriptor. -/
def testInner2 : GoFields :=
  .cons (.mk "POSTInteger2" false "" "POST" .intT)
  (.cons (.mk "PUTInteger2" false "" "PUT" .intT) .nil)

def testOuterFs : GoFields :=
  .cons (.mk "Inner2" true "" "POST" (.structT "Inner2" testInner2))
  (.cons (.mk "POSTInteger" false "" "POST" .intT)
  (.cons (.mk "PUTInteger" false "" "PUT" .intT) .nil))

theorem claim8_witness :
    ∃ d, NewDocType (.structT "Outer" testOuterFs) "POST" = .ok d ∧
      "POSTInteger2" ∈ d.Fields.names ∧
      d.Fields.names = ["POSTInteger2", "POSTInteger"] :=
  ⟨_, rfl,
    claim8_flatten_visible_embedded "Outer" "Inner2" "" "POST" "Inner2" testOuterFs testInner2
      "POST" _ (.mk "POSTInteger2" false "" "POST" .intT) rfl (by simp [testOuterFs, GoFields.toList])
      rfl (by simp [testInner2, GoFields.toList]) rfl rfl,
    rfl⟩

/-! ## Claim C3: malformed nested payload values -/

def c3OuterFs : GoFields :=
  .cons (.mk "POSTSubStruct" false "" "POST" testInnerT)
  (.cons (.mk "POSTSubStructSlice" false "" "POST" (.sliceT testInnerT)) .nil)

/-- C3.  The decode/filter stage does not return an error on a payload
whose value for a struct-typed visible field is not a JSON object, or
whose value for a slice-of-structs field is not an array of objects: the
unchecked type assertions `value.(map[string]interface{})` and
`value.([]interface{})` in `filterJSON` (src/unnamed/part_004 lines 572,
576-577) panic instead. -/
theorem claim3_malformed_nested_value_panics :
    copyJSON (.structT "Outer" c3OuterFs)
      (.objV (.cons "POSTSubStruct" (.numV 42) .nil)) "POST" = .crash assertObjMsg ∧
    copyJSON (.structT "Outer" c3OuterFs)
      (.objV (.cons "POSTSubStructSlice" (.numV 42) .nil)) "POST" = .crash assertArrMsg ∧
    copyJSON (.structT "Outer" c3OuterFs)
      (.objV (.cons "POSTSubStructSlice" (.arrV (.cons (.numV 7) .nil)) .nil)) "POST" =
        .crash assertObjMsg :=
  ⟨rfl, rfl, rfl⟩

/-! ## Claim C5: resolving a link with an unregistered route -/

/-- C5.  Resolving a link whose route name is not registered fails with a
descriptive error naming the route; it is an `err` outcome, not a panic
and not a successful empty URL. -/
theorem claim5_unregistered_route_error (ro : Router) (l : Link)
    (h : lookupRoute ro l.Route = none) :
    l.Resolve ro = .err ("no route registered with name " ++ l.Route) := by
  unfold Link.Resolve routerURL
  rw [h]

def c5Link : Link :=
  { Rel := "ghost", Route := "Ghost.Load", RouteParams := [], QueryParams := [],
    Method := "GET", TargetType := none, baseScheme := "http", baseHost := "h",
    linkDecorators := [] }

theorem claim5_witness :
    lookupRoute ([] : Router) c5Link.Route = none ∧
    c5Link.Resolve ([] : Router) = .err "no route registered with name Ghost.Load" :=
  ⟨rfl, claim5_unregistered_route_error ([] : Router) c5Link rfl⟩

/-! ## Claim C4: when a link's JSON form embeds the schema -/

def c4Type : GoType := .structT "T" (.cons (.mk "P" false "" "PUT" .intT) .nil)

def c4Router : Router := [("T.Create", "/T")]

def c4Link : Link :=
  { Rel := "create", Route := "T.Create", RouteParams := [], QueryParams := [],
    Method := "POST", TargetType := some c4Type, baseScheme := "http", baseHost := "h",
    linkDecorators := [] }

/-- C4 counterexample.  A POST link to a type with zero POST-visible
fields does not omit the schema from its JSON form: `Link.MarshalJSON`
checks only the method and the presence of a target type, so the wire
form carries the degenerate schema `{"type": "object"}`. -/
theorem claim4_counterexample :
    (∃ d, NewDocType c4Type "POST" = .ok d ∧ d.Fields = .nil) ∧
    (∃ j, c4Link.MarshalJSON c4Router = .ok j ∧
      j.Schema = some (.mk "object" .nil .noS .noS "")) :=
  ⟨⟨_, rfl, rfl⟩, _, rfl, rfl⟩

/-- C4 (amended).  In a successfully marshalled link the schema field is
present iff the link's method is POST or PUT and the link carries a
target type — independently of whether that type has any visible fields
for the method.  (The zero-visible-fields check exists only in the HTML
form rendering, `Link.HTMLNode`, part_004 line 264.) -/
theorem claim4_schema_iff_body_method_and_type (l : Link) (ro : Router) (j : LinkJSON)
    (hok : l.MarshalJSON ro = .ok j) :
    j.Schema.isSome = true ↔ ((l.Method = "POST" ∨ l.Method = "PUT") ∧ l.TargetType.isSome = true) := by
  unfold Link.MarshalJSON at hok
  cases hres : l.Resolve ro with
  | ok u =>
    rw [hres] at hok
    dsimp only [] at hok
    by_cases hm : l.Method = "POST" ∨ l.Method = "PUT"
    · rw [if_pos hm] at hok
      cases hty : l.TargetType with
      | some ty =>
        rw [hty] at hok
        dsimp only [] at hok
        cases hnd : NewDocType ty l.Method with
        | ok docType =>
          rw [hnd] at hok
          dsimp only [] at hok
          cases hsch : docType.ToJSONSchema with
          | ok schema =>
            rw [hsch] at hok
            dsimp only [] at hok
            cases hok
            simp [hm]
          | err e => rw [hsch] at hok; dsimp only [] at hok; cases hok
          | crash e => rw [hsch] at hok; dsimp only [] at hok; cases hok
        | err e => rw [hnd] at hok; dsimp only [] at hok; cases hok
        | crash e => rw [hnd] at hok; dsimp only [] at hok; cases hok
      | none =>
        rw [hty] at hok
        dsimp only [] at hok
        cases hok
        simp
    · rw [if_neg hm] at hok
      cases hok
      simp [hm]
  | err e => rw [hres] at hok; cases hok
  | crash e => rw [hres] at hok; cases hok

theorem claim4_witness :
    ∃ j, c4Link.MarshalJSON c4Router = .ok j ∧
      (j.Schema.isSome = true ↔
        ((c4Link.Method = "POST" ∨ c4Link.Method = "PUT") ∧ c4Link.TargetType.isSome = true)) :=
  ⟨_, rfl, claim4_schema_iff_body_method_and_type c4Link c4Router _ rfl⟩

/-! ## Claim C6: untranslatable pointer types -/

/-- C6 counterexample.  Descriptor construction does not fail on a
pointer type other than the key type: `NewDocType` happily returns a
descriptor of kind `ptr` for `*int`; the named error is raised only by
the later schema projection. -/
theorem claim6_counterexample :
    NewDocType (.ptrOther "*int") "POST" =
      .ok (.mk "ptr" "*int" .noElem .nil (.ptrOther "*int") "POST") ∧
    DocType.ToJSONSchema (.mk "ptr" "*int" .noElem .nil (.ptrOther "*int") "POST") =
      .err "Untranslatable Go Type *int" :=
  ⟨rfl, rfl⟩

/-- C6 (amended).  For every pointer type other than the designated key
type, the schema projection (`DocType.ToJSONSchema`) — not descriptor
construction — fails with a named error carrying the offending type's
identity, while the key pointer type maps to the string kind; descriptor
construction itself succeeds for every pointer type, deferring the
failure to the projection step. -/
theorem claim6_pointer_error_at_projection (n method : String) :
    (∃ d, NewDocType (.ptrOther n) method = .ok d ∧
      d.ToJSONSchema = .err ("Untranslatable Go Type " ++ n)) ∧
    (∃ d, NewDocType .ptrKey method = .ok d ∧
      d.ToJSONSchema = .ok (.mk "string" .nil .noS .noS "")) :=
  ⟨⟨_, rfl, rfl⟩, _, rfl, rfl⟩

/-! ## Claim C9: inconsistent handler return types -/

/-- C9.  Binding a Create handler deriving resource type `t1` and an
Update handler that passes every structural check but whose first return
type (stripped of pointers) differs makes `HandleResource` abort
registration with the named type-mismatch panic. -/
theorem claim9_type_mismatch_fatal (re : Resource) (f g : HandlerSig) (t1 : GoType)
    (hc : re.Create = some f) (hu : re.Update = some g)
    (hf : validateResourceFunc f none = .ok t1)
    (hgfun : g.isFunc = true) (hgin : g.numIn = 2) (hg0 : g.in0ResponseWriter = true)
    (hg1 : g.in1Request = true) (hgout : g.numOut = 2) (hgo0 : g.out0Itemer = true)
    (hgo1 : g.out1Error = true)
    (hne : beqGoType t1 (stripPtr g.out0) = false) :
    HandleResource re = .crash (t1.typeName ++ " and " ++ (stripPtr g.out0).typeName ++
      " not the same resource type") := by
  unfold HandleResource
  rw [hc, hu]
  have hstep1 : stepResource (some f) none = .ok (some t1) := by
    unfold stepResource createRoute
    dsimp only []
    rw [hf]
  rw [hstep1]
  dsimp only []
  have hstep2 : stepResource (some g) (some t1) =
      .crash (t1.typeName ++ " and " ++ (stripPtr g.out0).typeName ++
        " not the same resource type") := by
    unfold stepResource createRoute validateResourceFunc
    dsimp only []
    simp [hgfun, hgin, hg0, hg1, hgout, hgo0, hgo1, hne]
  rw [hstep2]

def c9ItemerA : HandlerSig :=
  { isFunc := true, numIn := 2, in0ResponseWriter := true, in1Request := true,
    numOut := 2, out0Itemer := true, out1Error := true,
    out0 := .ptr (.base (.structT "A" .nil)) }

def c9ItemerB : HandlerSig :=
  { isFunc := true, numIn := 2, in0ResponseWriter := true, in1Request := true,
    numOut := 2, out0Itemer := true, out1Error := true,
    out0 := .ptr (.base (.structT "B" .nil)) }

def c9Resource : Resource :=
  { Create := some c9ItemerA, Update := some c9ItemerB, Delete := none, Load := none }

theorem claim9_witness :
    HandleResource c9Resource = .crash "A and B not the same resource type" :=
  claim9_type_mismatch_fatal c9Resource c9ItemerA c9ItemerB (.structT "A" .nil)
    rfl rfl rfl rfl rfl rfl rfl rfl rfl rfl rfl

/-! ## Claim C10: ordering of the navigation links -/

def c10LinkB : Link :=
  { Rel := "b", Route := "T.Load", RouteParams := [], QueryParams := [],
    Method := "GET", TargetType := none, baseScheme := "http", baseHost := "h",
    linkDecorators := [] }

def c10LinkA : Link :=
  { Rel := "a", Route := "T.Load", RouteParams := [], QueryParams := [],
    Method := "", TargetType := none, baseScheme := "http", baseHost := "h",
    linkDecorators := [] }

def c10LinkC : Link :=
  { Rel := "c", Route := "T.Load", RouteParams := [], QueryParams := [],
    Method := "", TargetType := none, baseScheme := "http", baseHost := "h",
    linkDecorators := [] }

def c10Item : Item := ⟨"item", [c10LinkC, c10LinkB, c10LinkA]⟩

/-- `Links.Less` is asymmetric: no two links compare strictly below each
other in both directions (with equal methods the `Rel` order is strict;
with different methods at most one side is the GET-like one). -/
theorem linksLess_asymm (a b : Link) (h : Links.Less a b = true) :
    Links.Less b a = false := by
  unfold Links.Less at h ⊢
  by_cases hm : a.Method = b.Method
  · rw [if_pos (by simpa using hm)] at h
    rw [if_pos (by simpa using hm.symm)]
    exact decide_eq_false (lt_asymm (of_decide_eq_true h))
  · rw [if_neg (by simpa using hm)] at h
    rw [if_neg (by simpa using fun e => hm e.symm)]
    rw [Bool.and_eq_true, Bool.not_eq_true'] at h
    rw [h.2]
    rfl

/-- Insertion preserves the loop invariant of Go's insertion sort: in the
reversed prefix, no element compares strictly below the element to its
left (its successor in the reversed list). -/
theorem goInsertRev_chain (x : Link) : ∀ rev : List Link,
    List.Chain' (fun u v => Links.Less u v = false) rev →
    List.Chain' (fun u v => Links.Less u v = false) (goInsertRev x rev)
  | [], _ => List.chain'_singleton x
  | [y], _ => by
    rw [goInsertRev]
    by_cases hl : Links.Less x y = true
    · rw [if_pos hl, goInsertRev]
      exact List.chain'_cons.mpr ⟨linksLess_asymm x y hl, List.chain'_singleton x⟩
    · rw [if_neg hl]
      exact List.chain'_cons.mpr ⟨Bool.eq_false_iff.mpr hl, List.chain'_singleton y⟩
  | y :: z :: rev, hc => by
    rw [goInsertRev]
    by_cases hl : Links.Less x y = true
    · rw [if_pos hl]
      have hrec := goInsertRev_chain x (z :: rev) hc.tail
      rw [goInsertRev] at hrec ⊢
      by_cases hl2 : Links.Less x z = true
      · rw [if_pos hl2] at hrec ⊢
        exact List.chain'_cons.mpr ⟨(List.chain'_cons.mp hc).1, hrec⟩
      · rw [if_neg hl2] at hrec ⊢
        exact List.chain'_cons.mpr ⟨linksLess_asymm x y hl, hrec⟩
    · rw [if_neg hl]
      exact List.chain'_cons.mpr ⟨Bool.eq_false_iff.mpr hl, hc⟩

/-- After the outer loop, the reversed-prefix invariant yields a result
in which no link compares strictly below its immediate predecessor. -/
theorem insertionSortRev_chain : ∀ (rest acc : List Link),
    List.Chain' (fun u v => Links.Less u v = false) acc →
    List.Chain' (fun p q => Links.Less q p = false) (insertionSortRev acc rest)
  | [], _, hc => by
    rw [insertionSortRev]
    exact List.chain'_reverse.mpr hc
  | x :: rest, acc, hc => by
    rw [insertionSortRev]
    exact insertionSortRev_chain rest (goInsertRev x acc) (goInsertRev_chain x acc hc)

/-- The sorted navigation list has no adjacent inversion: no link
compares strictly below the link rendered immediately before it. -/
theorem insertionSortGo_chain (xs : List Link) :
    List.Chain' (fun p q => Links.Less q p = false) (insertionSortGo xs) :=
  insertionSortRev_chain xs [] List.chain'_nil

/-- Each insertion step permutes the inserted element into the prefix. -/
theorem goInsertRev_perm (x : Link) : ∀ rev : List Link,
    (goInsertRev x rev).Perm (x :: rev)
  | [] => List.Perm.refl _
  | y :: rev => by
    rw [goInsertRev]
    by_cases hl : Links.Less x y = true
    · rw [if_pos hl]
      exact ((goInsertRev_perm x rev).cons y).trans (List.Perm.swap x y rev)
    · rw [if_neg hl]

theorem insertionSortRev_perm : ∀ (rest acc : List Link),
    (insertionSortRev acc rest).Perm (acc ++ rest)
  | [], acc => by
    rw [insertionSortRev, List.append_nil]
    exact acc.reverse_perm
  | x :: rest, acc => by
    rw [insertionSortRev]
    refine (insertionSortRev_perm rest (goInsertRev x acc)).trans ?_
    exact ((goInsertRev_perm x acc).append_right rest).trans List.perm_middle.symm

/-- The sort returns a permutation of its input — all Go promises here,
`Links.Less` being no strict weak ordering. -/
theorem insertionSortGo_perm (xs : List Link) :
    (insertionSortGo xs).Perm xs :=
  insertionSortRev_perm xs []

/-- A link that does not compare strictly below another transfers
GET-ness backward: if the later link is a GET link, so is the earlier. -/
theorem less_false_getlike {p q : Link} (h : Links.Less q p = false)
    (hq : isGetLike q = true) : isGetLike p = true := by
  unfold Links.Less at h
  by_cases hm : q.Method = p.Method
  · unfold isGetLike at hq ⊢
    rw [← hm]
    exact hq
  · rw [if_neg (by simpa using hm)] at h
    unfold isGetLike at hq ⊢
    rw [hq, Bool.true_and, Bool.not_eq_false'] at h
    exact h

/-- Along a rendering with no adjacent inversion, once a non-GET link
appears every later link is non-GET. -/
theorem chain_notGetLike : ∀ (a : Link) (l : List Link),
    List.Chain' (fun p q => Links.Less q p = false) (a :: l) →
    isGetLike a = false → ∀ b ∈ l, isGetLike b = false
  | _, [], _, _, b, hb => absurd hb (List.not_mem_nil b)
  | a, c :: l, hc, hga, b, hb => by
    have hgc : isGetLike c = false := by
      cases hgc : isGetLike c
      · rfl
      · have h1 := less_false_getlike (List.chain'_cons.mp hc).1 hgc
        rw [hga] at h1
        exact absurd h1 (by decide)
    rcases List.mem_cons.mp hb with rfl | hb'
    · exact hgc
    · exact chain_notGetLike c l (List.chain'_cons.mp hc).2 hgc b hb'

/-- No adjacent inversion implies the GET-before-others partition as a
pairwise property of the whole rendering. -/
theorem chain_getlike_pairwise : ∀ l : List Link,
    List.Chain' (fun p q => Links.Less q p = false) l →
    l.Pairwise (fun a b => isGetLike b = true → isGetLike a = true)
  | [], _ => List.Pairwise.nil
  | a :: l, hc => by
    refine List.pairwise_cons.mpr ⟨?_, chain_getlike_pairwise l hc.tail⟩
    intro b hb hgb
    cases hga : isGetLike a
    · have h1 := chain_notGetLike a l hc hga b hb
      rw [hgb] at h1
      exact absurd h1 (by decide)
    · rfl

/-- C10 counterexample.  For the links C (empty method, relation `c`), B
(`GET`, relation `b`) and A (empty method, relation `a`), in that input
order, the insertion sort consults only `Less(B, C)` and `Less(A, B)`,
both false because the method strings differ while both sides count as
GET links, and leaves the list unchanged: the rendered navigation block
is `c, b, a`, not alphabetical by relation name — not even between the
two empty-method links `c` and `a`, which the `GET` link separates. -/
theorem claim10_counterexample :
    c10Item.navLinks = [c10LinkC, c10LinkB, c10LinkA] ∧
    c10LinkC.Method = c10LinkA.Method ∧
    Links.Less c10LinkB c10LinkC = false ∧ Links.Less c10LinkA c10LinkB = false ∧
    ¬ alphaByRel c10Item.navLinks := by
  refine ⟨rfl, rfl, rfl, rfl, ?_⟩
  intro h
  rw [show c10Item.navLinks = [c10LinkC, c10LinkB, c10LinkA] from rfl] at h
  have := (List.pairwise_cons.mp h).1 c10LinkA
    (List.mem_cons_of_mem _ (List.mem_singleton.mpr rfl))
  rw [show c10LinkC.Rel = "c" from rfl, show c10LinkA.Rel = "a" from rfl,
    String.le_iff_toList_le] at this
  exact absurd this (by decide)

/-- C10 (amended).  The navigation block renders a permutation of the
non-self links in which no link compares strictly below its immediate
predecessor under `Links.Less`, and consequently all GET-method links
(including empty-method links) come before links of any other method.
Global alphabetical order by relation name does not hold: the sort only
compares neighbours, and `Links.Less` orders two links by relation only
when their method strings are equal, so same-method links separated by a
differently-methoded link may stay out of alphabetical order, as the
counterexample above shows on a real rendering. -/
theorem claim10_nav_order (i : Item) :
    (i.navLinks).Perm i.restLinks ∧
    List.Chain' (fun p q => Links.Less q p = false) i.navLinks ∧
    i.navLinks.Pairwise (fun a b => isGetLike b = true → isGetLike a = true) :=
  ⟨insertionSortGo_perm i.restLinks, insertionSortGo_chain i.restLinks,
    chain_getlike_pairwise _ (insertionSortGo_chain i.restLinks)⟩

/-! ## Claim C2: nested values with zero visible fields pass through raw -/

/-- In a successful filter run, the head entry is either deleted or kept
under its own key, and the tail is filtered on its own. -/
theorem filterEntries_cons_ok (d : DocType) (k0 : String) (v0 : JSONValue) (rest : JSONObj)
    (method : String) (kvs' : JSONObj)
    (hrun : filterEntries d (.cons k0 v0 rest) method = .ok kvs') :
    ∃ r, filterEntries d rest method = .ok r ∧ (kvs' = r ∨ ∃ w, kvs' = .cons k0 w r) := by
  rw [filterEntries] at hrun
  cases hgf : d.GetField k0 with
  | none =>
    rw [hgf] at hrun
    exact ⟨kvs', hrun, Or.inl rfl⟩
  | some f0 =>
    rw [hgf] at hrun
    dsimp only [] at hrun
    cases hff : f0.Type.Fields with
    | cons a b =>
      rw [hff] at hrun
      cases v0 with
      | objV kvs0 =>
        dsimp only [] at hrun
        cases hnd : NewDocType f0.Type.typ method with
        | ok d2 =>
          rw [hnd] at hrun
          dsimp only [] at hrun
          cases hin : filterEntries d2 kvs0 method with
          | ok kvs2 =>
            rw [hin] at hrun
            dsimp only [] at hrun
            cases hr : filterEntries d rest method with
            | ok r =>
              rw [hr] at hrun
              cases hrun
              exact ⟨r, rfl, Or.inr ⟨_, rfl⟩⟩
            | err e => rw [hr] at hrun; cases hrun
            | crash e => rw [hr] at hrun; cases hrun
          | err e => rw [hin] at hrun; cases hrun
          | crash e => rw [hin] at hrun; cases hrun
        | err e => rw [hnd] at hrun; cases hrun
        | crash e => rw [hnd] at hrun; cases hrun
      | null => cases hrun
      | boolV b => cases hrun
      | numV n => cases hrun
      | strV s => cases hrun
      | arrV xs => cases hrun
    | nil =>
      rw [hff] at hrun
      cases hel : f0.Type.Elem with
      | noElem =>
        rw [hel] at hrun
        dsimp only [] at hrun
        cases hr : filterEntries d rest method with
        | ok r =>
          rw [hr] at hrun
          cases hrun
          exact ⟨r, rfl, Or.inr ⟨_, rfl⟩⟩
        | err e => rw [hr] at hrun; cases hrun
        | crash e => rw [hr] at hrun; cases hrun
      | someElem el =>
        rw [hel] at hrun
        dsimp only [] at hrun
        cases hef : el.Fields with
        | cons a b =>
          rw [hef] at hrun
          cases v0 with
          | arrV xs =>
            dsimp only [] at hrun
            cases hxs : filterElems el.typ xs method with
            | ok xs2 =>
              rw [hxs] at hrun
              dsimp only [] at hrun
              cases hr : filterEntries d rest method with
              | ok r =>
                rw [hr] at hrun
                cases hrun
                exact ⟨r, rfl, Or.inr ⟨_, rfl⟩⟩
              | err e => rw [hr] at hrun; cases hrun
              | crash e => rw [hr] at hrun; cases hrun
            | err e => rw [hxs] at hrun; cases hrun
            | crash e => rw [hxs] at hrun; cases hrun
          | null => cases hrun
          | boolV b => cases hrun
          | numV n => cases hrun
          | strV s => cases hrun
          | objV kvs0 => cases hrun
        | nil =>
          rw [hef] at hrun
          dsimp only [] at hrun
          cases hr : filterEntries d rest method with
          | ok r =>
            rw [hr] at hrun
            cases hrun
            exact ⟨r, rfl, Or.inr ⟨_, rfl⟩⟩
          | err e => rw [hr] at hrun; cases hrun
          | crash e => rw [hr] at hrun; cases hrun

/-- A head entry whose field descriptor has no fields and no element
field list is kept completely untouched. -/
theorem filterEntries_head_raw (d : DocType) (k0 : String) (v0 : JSONValue) (rest : JSONObj)
    (method : String) (kvs' : JSONObj) (f : DocField)
    (hgf : d.GetField k0 = some f) (hff : f.Type.Fields = .nil)
    (hel : f.Type.Elem = .noElem ∨ ∃ el, f.Type.Elem = .someElem el ∧ el.Fields = .nil)
    (hrun : filterEntries d (.cons k0 v0 rest) method = .ok kvs') :
    ∃ r, filterEntries d rest method = .ok r ∧ kvs' = .cons k0 v0 r := by
  rw [filterEntries, hgf] at hrun
  dsimp only [] at hrun
  rw [hff] at hrun
  rcases hel with hel | ⟨el, hel, hef⟩
  · rw [hel] at hrun
    dsimp only [] at hrun
    cases hr : filterEntries d rest method with
    | ok r => rw [hr] at hrun; cases hrun; exact ⟨r, rfl, rfl⟩
    | err e => rw [hr] at hrun; cases hrun
    | crash e => rw [hr] at hrun; cases hrun
  · rw [hel] at hrun
    dsimp only [] at hrun
    rw [hef] at hrun
    dsimp only [] at hrun
    cases hr : filterEntries d rest method with
    | ok r => rw [hr] at hrun; cases hrun; exact ⟨r, rfl, rfl⟩
    | err e => rw [hr] at hrun; cases hrun
    | crash e => rw [hr] at hrun; cases hrun

/-- C2.  When a payload key names a visible field whose descriptor has an
empty field list (a struct-typed field whose struct has zero visible
fields for the method) — and likewise when the field is a slice whose
element descriptor has an empty field list — `filterJSON` keeps the
field's raw value completely unfiltered: the value under that key
survives filtering unchanged, so nested keys naming fields without the
method's tag reach the final typed decode. -/
theorem claim2_zero_visible_nested_kept_raw : ∀ (kvs : JSONObj) (d : DocType)
    (method : String) (kvs' : JSONObj) (k : String) (f : DocField) (v : JSONValue),
    d.GetField k = some f → f.Type.Fields = .nil →
    (f.Type.Elem = .noElem ∨ ∃ el, f.Type.Elem = .someElem el ∧ el.Fields = .nil) →
    filterEntries d kvs method = .ok kvs' → kvs.lookup k = some v →
    kvs'.lookup k = some v
  | .nil, d, method, kvs', k, f, v, _, _, _, _, hl => by
    simp [JSONObj.lookup] at hl
  | .cons k0 v0 rest, d, method, kvs', k, f, v, hgf, hff, hel, hrun, hl => by
    rw [JSONObj.lookup] at hl
    by_cases hk : k0 = k
    · subst hk
      rw [if_pos rfl] at hl
      cases hl
      obtain ⟨r, _, hkeep⟩ := filterEntries_head_raw d k0 v0 rest method kvs' f hgf hff hel hrun
      subst hkeep
      simp [JSONObj.lookup]
    · rw [if_neg hk] at hl
      obtain ⟨r, hr, hshape⟩ := filterEntries_cons_ok d k0 v0 rest method kvs' hrun
      rcases hshape with rfl | ⟨w, rfl⟩
      · exact claim2_zero_visible_nested_kept_raw rest d method _ k f v hgf hff hel hr hl
      · rw [JSONObj.lookup, if_neg hk]
        exact claim2_zero_visible_nested_kept_raw rest d method _ k f v hgf hff hel hr hl

/-- C2 witness: field `G` is POST-visible but its struct type `Inner2`
has only a PUT field, so the nested object (with its PUT-only key `P`)
passes the POST filter untouched and the typed decode populates `P`. -/
def c2InnerFs : GoFields := .cons (.mk "P" false "" "PUT" .intT) .nil

def c2OuterT : GoType :=
  .structT "Outer2" (.cons (.mk "G" false "" "POST" (.structT "Inner2" c2InnerFs)) .nil)

def c2Payload : JSONObj := .cons "G" (.objV (.cons "P" (.numV 5) .nil)) .nil

def c2InnerDoc : DocType :=
  .mk "struct" "Inner2" .noElem .nil (.structT "Inner2" c2InnerFs) "POST"

def c2GField : GoField := .mk "G" false "" "POST" (.structT "Inner2" c2InnerFs)

def c2OuterDoc : DocType :=
  .mk "struct" "Outer2" .noElem (.cons (.mk "G" c2InnerDoc c2GField) .nil) c2OuterT "POST"

theorem claim2_witness :
    NewDocType c2OuterT "POST" = .ok c2OuterDoc ∧
    filterEntries c2OuterDoc c2Payload "POST" = .ok c2Payload ∧
    JSONObj.lookup c2Payload "G" = some (.objV (.cons "P" (.numV 5) .nil)) ∧
    copyJSON c2OuterT (.objV c2Payload) "POST" =
      .ok (.structV (.cons "G" (.structV (.cons "P" (.intV 5) .nil)) .nil)) :=
  ⟨rfl, rfl,
    claim2_zero_visible_nested_kept_raw c2Payload c2OuterDoc "POST" c2Payload "G"
      (.mk "G" c2InnerDoc c2GField) (.objV (.cons "P" (.numV 5) .nil))
      rfl rfl (Or.inl rfl) rfl rfl,
    rfl⟩

/-! ## Claim C1: correspondence between the filter and the spec's
pre-stripping -/

theorem newDocType_typ : ∀ (t : GoType) (m : String) (d : DocType),
    NewDocType t m = .ok d → d.typ = t
  | .stringT, _, _, h => by cases h; rfl
  | .boolT, _, _, h => by cases h; rfl
  | .intT, _, _, h => by cases h; rfl
  | .ptrKey, _, _, h => by cases h; rfl
  | .ptrOther _, _, _, h => by cases h; rfl
  | .mapT _, _, _, h => by cases h; rfl
  | .sliceT e, m, d, h => by
    rw [NewDocType] at h
    cases he : NewDocType e m with
    | ok eld => rw [he] at h; cases h; rfl
    | err x => rw [he] at h; cases h
    | crash x => rw [he] at h; cases h
  | .structT n fs, m, d, h => by
    rw [NewDocType] at h
    cases hfs : docFieldsOf fs m with
    | ok dfs => rw [hfs] at h; cases h; rfl
    | err x => rw [hfs] at h; cases h
    | crash x => rw [hfs] at h; cases h

theorem newDocType_slice_inv (e : GoType) (m : String) (d : DocType)
    (h : NewDocType (.sliceT e) m = .ok d) :
    ∃ eld, NewDocType e m = .ok eld ∧
      d = .mk "slice" (GoType.sliceT e).typeName (.someElem eld) .nil (.sliceT e) m := by
  rw [NewDocType] at h
  cases he : NewDocType e m with
  | ok eld => rw [he] at h; cases h; exact ⟨eld, rfl, rfl⟩
  | err x => rw [he] at h; cases h
  | crash x => rw [he] at h; cases h

theorem newDocType_struct_inv (n : String) (fs : GoFields) (m : String) (d : DocType)
    (h : NewDocType (.structT n fs) m = .ok d) :
    ∃ dfs, docFieldsOf fs m = .ok dfs ∧
      d = .mk "struct" (GoType.structT n fs).typeName .noElem dfs (.structT n fs) m := by
  rw [NewDocType] at h
  cases hfs : docFieldsOf fs m with
  | ok dfs => rw [hfs] at h; cases h; exact ⟨dfs, rfl, rfl⟩
  | err x => rw [hfs] at h; cases h
  | crash x => rw [hfs] at h; cases h

/-- Name/type pairs of descriptor fields, for comparison with the
spec-side `specFieldsOf`. -/
def dfsPairs : DocFields → List (String × GoType)
  | .nil => []
  | .cons df rest => (df.Name, df.Type.typ) :: dfsPairs rest

theorem dfsPairs_append : ∀ (a b : DocFields),
    dfsPairs (a.append b) = dfsPairs a ++ dfsPairs b
  | .nil, _ => rfl
  | .cons df rest, b => by
    simp [DocFields.append, dfsPairs, dfsPairs_append rest b]

/-- The field walk realizes exactly the spec's flattened visible field
set, name for name and type for type. -/
theorem docFieldsOf_pairs : ∀ (fs : GoFields) (m : String) (dfs : DocFields),
    docFieldsOf fs m = .ok dfs → dfsPairs dfs = specFieldsOf fs m
  | .nil, m, dfs, h => by
    cases h; rfl
  | .cons (.mk nm anon jt mt ft) rest, m, dfs, h => by
    rw [docFieldsOf] at h
    rw [specFieldsOf, ← goFound_eq_specVisible]
    by_cases hv : goFound (.mk nm anon jt mt ft) m
    · rw [if_pos hv] at h
      rw [if_pos hv]
      cases anon with
      | true =>
        simp only [if_true] at h ⊢
        cases ft with
        | structT sn gs =>
          rw [show NewDocFields (.structT sn gs) m = docFieldsOf gs m from rfl] at h
          cases hgs : docFieldsOf gs m with
          | ok inner =>
            rw [hgs] at h
            cases hrec : docFieldsOf rest m with
            | ok r =>
              rw [hrec] at h
              cases h
              rw [dfsPairs_append, docFieldsOf_pairs gs m inner hgs,
                docFieldsOf_pairs rest m r hrec]
              rfl
            | err e => rw [hrec] at h; cases h
            | crash e => rw [hrec] at h; cases h
          | err e => rw [hgs] at h; cases h
          | crash e => rw [hgs] at h; cases h
        | stringT => cases h
        | boolT => cases h
        | intT => cases h
        | ptrKey => cases h
        | ptrOther x => cases h
        | sliceT x => cases h
        | mapT x => cases h
      | false =>
        simp only [Bool.false_eq_true, if_false] at h ⊢
        cases hnd : NewDocType ft m with
        | ok dty =>
          rw [hnd] at h
          cases hrec : docFieldsOf rest m with
          | ok r =>
            rw [hrec] at h
            cases h
            simp only [dfsPairs, DocField.Name, DocField.Type]
            rw [newDocType_typ ft m dty hnd, docFieldsOf_pairs rest m r hrec]
            rfl
          | err e => rw [hrec] at h; cases h
          | crash e => rw [hrec] at h; cases h
        | err e => rw [hnd] at h; cases h
        | crash e => rw [hnd] at h; cases h
    · rw [if_neg hv] at h
      rw [if_neg hv]
      exact docFieldsOf_pairs rest m dfs h

theorem DocFields.find_append : ∀ (a b : DocFields) (k : String),
    (a.append b).find k =
      (match a.find k with
       | some df => some df
       | none => b.find k)
  | .nil, b, k => rfl
  | .cons df rest, b, k => by
    rw [DocFields.append, DocFields.find, DocFields.find]
    by_cases hk : df.Name = k
    · rw [if_pos hk, if_pos hk]
    · rw [if_neg hk, if_neg hk]
      exact DocFields.find_append rest b k

/-- Key lookup in the pairs is key lookup among the descriptor fields. -/
theorem find_pairs : ∀ (dfs : DocFields) (k : String),
    lookupFieldType (dfsPairs dfs) k = Option.map (fun df => df.Type.typ) (dfs.find k)
  | .nil, k => rfl
  | .cons df rest, k => by
    rw [dfsPairs, lookupFieldType, DocFields.find]
    by_cases hk : df.Name = k
    · rw [if_pos hk, if_pos hk]
      rfl
    · rw [if_neg hk, if_neg hk]
      exact find_pairs rest k

/-- Every descriptor field stores the descriptor `NewDocType` builds for
its own type. -/
theorem docFieldsOf_find_ok : ∀ (fs : GoFields) (m : String) (dfs : DocFields)
    (k : String) (df : DocField),
    docFieldsOf fs m = .ok dfs → dfs.find k = some df →
    NewDocType df.Type.typ m = .ok df.Type
  | .nil, m, dfs, k, df, h, hfind => by
    cases h
    cases hfind
  | .cons (.mk nm anon jt mt ft) rest, m, dfs, k, df, h, hfind => by
    rw [docFieldsOf] at h
    by_cases hv : goFound (.mk nm anon jt mt ft) m
    · rw [if_pos hv] at h
      cases anon with
      | true =>
        simp only [if_true] at h
        cases ft with
        | structT sn gs =>
          rw [show NewDocFields (.structT sn gs) m = docFieldsOf gs m from rfl] at h
          cases hgs : docFieldsOf gs m with
          | ok inner =>
            rw [hgs] at h
            cases hrec : docFieldsOf rest m with
            | ok r =>
              rw [hrec] at h
              cases h
              rw [DocFields.find_append] at hfind
              cases hfi : inner.find k with
              | some df2 =>
                rw [hfi] at hfind
                cases hfind
                exact docFieldsOf_find_ok gs m inner k df hgs hfi
              | none =>
                rw [hfi] at hfind
                exact docFieldsOf_find_ok rest m r k df hrec hfind
            | err e => rw [hrec] at h; cases h
            | crash e => rw [hrec] at h; cases h
          | err e => rw [hgs] at h; cases h
          | crash e => rw [hgs] at h; cases h
        | stringT => cases h
        | boolT => cases h
        | intT => cases h
        | ptrKey => cases h
        | ptrOther x => cases h
        | sliceT x => cases h
        | mapT x => cases h
      | false =>
        simp only [Bool.false_eq_true, if_false] at h
        cases hnd : NewDocType ft m with
        | ok dty =>
          rw [hnd] at h
          cases hrec : docFieldsOf rest m with
          | ok r =>
            rw [hrec] at h
            cases h
            rw [DocFields.find] at hfind
            by_cases hk : (DocField.mk nm dty (.mk nm false jt mt ft)).Name = k
            · rw [if_pos hk] at hfind
              cases hfind
              simp only [DocField.Type]
              rw [newDocType_typ ft m dty hnd]
              exact hnd
            · rw [if_neg hk] at hfind
              exact docFieldsOf_find_ok rest m r k df hrec hfind
          | err e => rw [hrec] at h; cases h
          | crash e => rw [hrec] at h; cases h
        | err e => rw [hnd] at h; cases h
        | crash e => rw [hnd] at h; cases h
    · rw [if_neg hv] at h
      exact docFieldsOf_find_ok rest m dfs k df h hfind

/-! Pre-stripping is the identity on values of struct-free destination
types. -/

mutual
theorem structFree_preStrip_id : ∀ (t : GoType) (m : String) (v : JSONValue),
    structFree t = true → preStrip t m v = v
  | .structT _ _, _, _, hf => by simp [structFree] at hf
  | .sliceT e, m, v, hf => by
    rw [structFree] at hf
    cases v with
    | arrV xs => rw [preStrip, structFree_preStrip_arr e m xs hf]
    | null => rfl
    | boolV b => rfl
    | numV n => rfl
    | strV s => rfl
    | objV kvs => rfl
  | .mapT w, m, v, hf => by
    rw [structFree] at hf
    cases v with
    | objV kvs => rw [preStrip, structFree_preStrip_map w m kvs hf]
    | null => rfl
    | boolV b => rfl
    | numV n => rfl
    | strV s => rfl
    | arrV xs => rfl
  | .stringT, m, v, _ => by cases v <;> rfl
  | .boolT, m, v, _ => by cases v <;> rfl
  | .intT, m, v, _ => by cases v <;> rfl
  | .ptrKey, m, v, _ => by cases v <;> rfl
  | .ptrOther _, m, v, _ => by cases v <;> rfl

theorem structFree_preStrip_arr : ∀ (e : GoType) (m : String) (xs : JSONArr),
    structFree e = true → preStripArr e m xs = xs
  | _, _, .nil, _ => rfl
  | e, m, .cons v rest, hf => by
    rw [preStripArr, structFree_preStrip_id e m v hf, structFree_preStrip_arr e m rest hf]

theorem structFree_preStrip_map : ∀ (w : GoType) (m : String) (kvs : JSONObj),
    structFree w = true → preStripMap w m kvs = kvs
  | _, _, .nil, _ => rfl
  | w, m, .cons k v rest, hf => by
    rw [preStripMap, structFree_preStrip_id w m v hf, structFree_preStrip_map w m rest hf]
end

theorem lookupFieldType_append : ∀ (a b : List (String × GoType)) (k : String),
    lookupFieldType (a ++ b) k =
      (match lookupFieldType a k with
       | some ty => some ty
       | none => lookupFieldType b k)
  | [], b, k => rfl
  | (n, t) :: rest, b, k => by
    rw [List.cons_append, lookupFieldType, lookupFieldType]
    by_cases hk : n = k
    · rw [if_pos hk, if_pos hk]
    · rw [if_neg hk, if_neg hk]
      exact lookupFieldType_append rest b k

/-- Under `ffFields`, every visible field type (looked up by name in the
flattened spec field set) satisfies `fieldTypeOK`. -/
theorem ffFields_fieldTypeOK : ∀ (fs : GoFields) (m : String) (k : String) (ty : GoType),
    ffFields fs m = true → lookupFieldType (specFieldsOf fs m) k = some ty →
    fieldTypeOK ty m = true
  | .nil, m, k, ty, _, hlk => by cases hlk
  | .cons (.mk nm anon jt mt ft) rest, m, k, ty, hff, hlk => by
    rw [ffFields, Bool.and_eq_true] at hff
    obtain ⟨hhead, hrest⟩ := hff
    rw [specFieldsOf] at hlk
    by_cases hv : specVisible (.mk nm anon jt mt ft) m
    · rw [if_pos hv] at hlk
      rw [if_pos hv] at hhead
      cases anon with
      | true =>
        simp only [if_true] at hlk hhead
        rw [lookupFieldType_append] at hlk
        cases hfi : lookupFieldType (specFields ft m) k with
        | some ty2 =>
          rw [hfi] at hlk
          cases hlk
          cases ft with
          | structT sn gs =>
            rw [fullyFiltered] at hhead
            exact ffFields_fieldTypeOK gs m k ty hhead (by rwa [specFields] at hfi)
          | stringT => cases hfi
          | boolT => cases hfi
          | intT => cases hfi
          | ptrKey => cases hfi
          | ptrOther x => cases hfi
          | sliceT x => cases hfi
          | mapT x => cases hfi
        | none =>
          rw [hfi] at hlk
          exact ffFields_fieldTypeOK rest m k ty hrest hlk
      | false =>
        simp only [Bool.false_eq_true, if_false] at hlk hhead
        rw [List.singleton_append, lookupFieldType] at hlk
        by_cases hk : nm = k
        · rw [if_pos hk] at hlk
          cases hlk
          exact hhead
        · rw [if_neg hk] at hlk
          exact ffFields_fieldTypeOK rest m k ty hrest hlk
    · rw [if_neg hv] at hlk
      rw [if_neg hv] at hhead
      exact ffFields_fieldTypeOK rest m k ty hrest hlk

/-! The heart of C1: on a `fullyFiltered` destination type, a successful
filter run computes exactly the spec's recursive pre-stripping. -/

mutual
theorem filter_pre_entries : ∀ (kvs : JSONObj) (sn : String) (fs : GoFields) (m : String)
    (d : DocType) (kvs' : JSONObj),
    ffFields fs m = true → NewDocType (.structT sn fs) m = .ok d →
    filterEntries d kvs m = .ok kvs' →
    preStripObj (specFieldsOf fs m) m kvs = kvs'
  | .nil, sn, fs, m, d, kvs', _, _, hrun => by
    cases hrun
    rfl
  | .cons k0 v0 rest, sn, fs, m, d, kvs', hff, hok, hrun => by
    obtain ⟨dfs, hdfs, hdef⟩ := newDocType_struct_inv sn fs m d hok
    subst hdef
    rw [filterEntries] at hrun
    dsimp only [DocType.GetField, DocType.Fields] at hrun
    rw [preStripObj]
    have hlk : lookupFieldType (specFieldsOf fs m) k0 =
        Option.map (fun df => df.Type.typ) (dfs.find k0) := by
      rw [← docFieldsOf_pairs fs m dfs hdfs, find_pairs]
    cases hfind : dfs.find k0 with
    | none =>
      rw [hfind] at hrun hlk
      simp only [Option.map] at hlk
      rw [hlk]
      exact filter_pre_entries rest sn fs m _ kvs' hff hok hrun
    | some df =>
      rw [hfind] at hrun hlk
      simp only [Option.map] at hlk
      rw [hlk]
      dsimp only [] at hrun ⊢
      have hty : NewDocType df.Type.typ m = .ok df.Type :=
        docFieldsOf_find_ok fs m dfs k0 df hdfs hfind
      have hfOK : fieldTypeOK df.Type.typ m = true :=
        ffFields_fieldTypeOK fs m k0 df.Type.typ hff hlk
      obtain ⟨dfn, dft, dfgf⟩ := df
      dsimp only [DocField.Type] at hty hfOK hrun ⊢
      cases hcase : dft.typ with
      | structT sn2 gs2 =>
        rw [hcase] at hty hfOK
        obtain ⟨dfs2, hdfs2, hdef2⟩ := newDocType_struct_inv sn2 gs2 m dft hty
        rw [hdef2] at hrun
        dsimp only [DocType.Fields, DocType.Elem, DocType.typ] at hrun
        rw [fieldTypeOK, Bool.and_eq_true] at hfOK
        obtain ⟨hne, hffin⟩ := hfOK
        cases hdfs2c : dfs2 with
        | nil =>
          rw [hdfs2c] at hdfs2
          have : specFieldsOf gs2 m = [] := by
            rw [← docFieldsOf_pairs gs2 m .nil hdfs2]
            rfl
          rw [this] at hne
          simp [List.isEmpty] at hne
        | cons a b =>
          rw [hdfs2c] at hrun hdfs2
          cases v0 with
          | objV kvs0 =>
            dsimp only [] at hrun
            have hok2 : NewDocType (.structT sn2 gs2) m =
                .ok (.mk "struct" (GoType.structT sn2 gs2).typeName .noElem
                  (.cons a b) (.structT sn2 gs2) m) := by
              rw [NewDocType, hdfs2]
              rfl
            rw [hok2] at hrun
            dsimp only [] at hrun
            cases hin : filterEntries (.mk "struct" (GoType.structT sn2 gs2).typeName .noElem
                (.cons a b) (.structT sn2 gs2) m) kvs0 m with
            | ok kvs2 =>
              rw [hin] at hrun
              dsimp only [] at hrun
              cases hr : filterEntries (.mk "struct" (GoType.structT sn fs).typeName .noElem dfs
                  (.structT sn fs) m) rest m with
              | ok r =>
                rw [hr] at hrun
                cases hrun
                rw [preStrip]
                rw [filter_pre_entries kvs0 sn2 gs2 m _ kvs2 hffin hok2 hin]
                rw [filter_pre_entries rest sn fs m _ r hff hok hr]
              | err e => rw [hr] at hrun; cases hrun
              | crash e => rw [hr] at hrun; cases hrun
            | err e => rw [hin] at hrun; cases hrun
            | crash e => rw [hin] at hrun; cases hrun
          | null => cases hrun
          | boolV b2 => cases hrun
          | numV n2 => cases hrun
          | strV s2 => cases hrun
          | arrV xs => cases hrun
      | sliceT e =>
        rw [hcase] at hty hfOK
        obtain ⟨eld, held, hdef2⟩ := newDocType_slice_inv e m dft hty
        rw [hdef2] at hrun
        dsimp only [DocType.Fields, DocType.Elem, DocType.typ] at hrun
        cases e with
        | structT sn3 gs3 =>
          obtain ⟨dfs3, hdfs3, hdef3⟩ := newDocType_struct_inv sn3 gs3 m eld held
          rw [hdef3] at hrun
          dsimp only [DocType.Fields, DocType.typ] at hrun
          rw [fieldTypeOK, Bool.and_eq_true] at hfOK
          obtain ⟨hne, hffin⟩ := hfOK
          cases hdfs3c : dfs3 with
          | nil =>
            rw [hdfs3c] at hdfs3
            have : specFieldsOf gs3 m = [] := by
              rw [← docFieldsOf_pairs gs3 m .nil hdfs3]
              rfl
            rw [this] at hne
            simp [List.isEmpty] at hne
          | cons a b =>
            rw [hdfs3c] at hrun
            cases v0 with
            | arrV xs =>
              dsimp only [] at hrun
              cases hxs : filterElems (.structT sn3 gs3) xs m with
              | ok xs2 =>
                rw [hxs] at hrun
                dsimp only [] at hrun
                cases hr : filterEntries (.mk "struct" (GoType.structT sn fs).typeName .noElem dfs
                    (.structT sn fs) m) rest m with
                | ok r =>
                  rw [hr] at hrun
                  cases hrun
                  rw [preStrip]
                  rw [filter_pre_elems xs sn3 gs3 m xs2 hffin hxs]
                  rw [filter_pre_entries rest sn fs m _ r hff hok hr]
                | err er => rw [hr] at hrun; cases hrun
                | crash er => rw [hr] at hrun; cases hrun
              | err er => rw [hxs] at hrun; cases hrun
              | crash er => rw [hxs] at hrun; cases hrun
            | null => cases hrun
            | boolV b2 => cases hrun
            | numV n2 => cases hrun
            | strV s2 => cases hrun
            | objV kvs0 => cases hrun
        | stringT =>
          cases held
          dsimp only [DocType.Fields] at hrun
          cases hr : filterEntries (.mk "struct" (GoType.structT sn fs).typeName .noElem dfs
              (.structT sn fs) m) rest m with
          | ok r =>
            rw [hr] at hrun
            cases hrun
            rw [structFree_preStrip_id (.sliceT .stringT) m v0 rfl]
            rw [filter_pre_entries rest sn fs m _ r hff hok hr]
          | err er => rw [hr] at hrun; cases hrun
          | crash er => rw [hr] at hrun; cases hrun
        | boolT =>
          cases held
          dsimp only [DocType.Fields] at hrun
          cases hr : filterEntries (.mk "struct" (GoType.structT sn fs).typeName .noElem dfs
              (.structT sn fs) m) rest m with
          | ok r =>
            rw [hr] at hrun
            cases hrun
            rw [structFree_preStrip_id (.sliceT .boolT) m v0 rfl]
            rw [filter_pre_entries rest sn fs m _ r hff hok hr]
          | err er => rw [hr] at hrun; cases hrun
          | crash er => rw [hr] at hrun; cases hrun
        | intT =>
          cases held
          dsimp only [DocType.Fields] at hrun
          cases hr : filterEntries (.mk "struct" (GoType.structT sn fs).typeName .noElem dfs
              (.structT sn fs) m) rest m with
          | ok r =>
            rw [hr] at hrun
            cases hrun
            rw [structFree_preStrip_id (.sliceT .intT) m v0 rfl]
            rw [filter_pre_entries rest sn fs m _ r hff hok hr]
          | err er => rw [hr] at hrun; cases hrun
          | crash er => rw [hr] at hrun; cases hrun
        | ptrKey =>
          cases held
          dsimp only [DocType.Fields] at hrun
          cases hr : filterEntries (.mk "struct" (GoType.structT sn fs).typeName .noElem dfs
              (.structT sn fs) m) rest m with
          | ok r =>
            rw [hr] at hrun
            cases hrun
            rw [structFree_preStrip_id (.sliceT .ptrKey) m v0 rfl]
            rw [filter_pre_entries rest sn fs m _ r hff hok hr]
          | err er => rw [hr] at hrun; cases hrun
          | crash er => rw [hr] at hrun; cases hrun
        | ptrOther nm2 =>
          cases held
          dsimp only [DocType.Fields] at hrun
          cases hr : filterEntries (.mk "struct" (GoType.structT sn fs).typeName .noElem dfs
              (.structT sn fs) m) rest m with
          | ok r =>
            rw [hr] at hrun
            cases hrun
            rw [structFree_preStrip_id (.sliceT (.ptrOther nm2)) m v0 rfl]
            rw [filter_pre_entries rest sn fs m _ r hff hok hr]
          | err er => rw [hr] at hrun; cases hrun
          | crash er => rw [hr] at hrun; cases hrun
        | sliceT e2 =>
          obtain ⟨eld2, held2, hdef3⟩ := newDocType_slice_inv e2 m eld held
          rw [hdef3] at hrun
          dsimp only [DocType.Fields] at hrun
          cases hr : filterEntries (.mk "struct" (GoType.structT sn fs).typeName .noElem dfs
              (.structT sn fs) m) rest m with
          | ok r =>
            rw [hr] at hrun
            cases hrun
            rw [structFree_preStrip_id (.sliceT (.sliceT e2)) m v0 hfOK]
            rw [filter_pre_entries rest sn fs m _ r hff hok hr]
          | err er => rw [hr] at hrun; cases hrun
          | crash er => rw [hr] at hrun; cases hrun
        | mapT w2 =>
          cases held
          dsimp only [DocType.Fields] at hrun
          cases hr : filterEntries (.mk "struct" (GoType.structT sn fs).typeName .noElem dfs
              (.structT sn fs) m) rest m with
          | ok r =>
            rw [hr] at hrun
            cases hrun
            rw [structFree_preStrip_id (.sliceT (.mapT w2)) m v0 hfOK]
            rw [filter_pre_entries rest sn fs m _ r hff hok hr]
          | err er => rw [hr] at hrun; cases hrun
          | crash er => rw [hr] at hrun; cases hrun
      | mapT w =>
        rw [hcase] at hty hfOK
        cases hty
        dsimp only [DocType.Fields, DocType.Elem] at hrun
        cases hr : filterEntries (.mk "struct" (GoType.structT sn fs).typeName .noElem dfs
            (.structT sn fs) m) rest m with
        | ok r =>
          rw [hr] at hrun
          cases hrun
          rw [structFree_preStrip_id (.mapT w) m v0 hfOK]
          rw [filter_pre_entries rest sn fs m _ r hff hok hr]
        | err er => rw [hr] at hrun; cases hrun
        | crash er => rw [hr] at hrun; cases hrun
      | stringT =>
        rw [hcase] at hty
        cases hty
        dsimp only [DocType.Fields, DocType.Elem] at hrun
        cases hr : filterEntries (.mk "struct" (GoType.structT sn fs).typeName .noElem dfs
            (.structT sn fs) m) rest m with
        | ok r =>
          rw [hr] at hrun
          cases hrun
          rw [structFree_preStrip_id .stringT m v0 rfl]
          rw [filter_pre_entries rest sn fs m _ r hff hok hr]
        | err er => rw [hr] at hrun; cases hrun
        | crash er => rw [hr] at hrun; cases hrun
      | boolT =>
        rw [hcase] at hty
        cases hty
        dsimp only [DocType.Fields, DocType.Elem] at hrun
        cases hr : filterEntries (.mk "struct" (GoType.structT sn fs).typeName .noElem dfs
            (.structT sn fs) m) rest m with
        | ok r =>
          rw [hr] at hrun
          cases hrun
          rw [structFree_preStrip_id .boolT m v0 rfl]
          rw [filter_pre_entries rest sn fs m _ r hff hok hr]
        | err er => rw [hr] at hrun; cases hrun
        | crash er => rw [hr] at hrun; cases hrun
      | intT =>
        rw [hcase] at hty
        cases hty
        dsimp only [DocType.Fields, DocType.Elem] at hrun
        cases hr : filterEntries (.mk "struct" (GoType.structT sn fs).typeName .noElem dfs
            (.structT sn fs) m) rest m with
        | ok r =>
          rw [hr] at hrun
          cases hrun
          rw [structFree_preStrip_id .intT m v0 rfl]
          rw [filter_pre_entries rest sn fs m _ r hff hok hr]
        | err er => rw [hr] at hrun; cases hrun
        | crash er => rw [hr] at hrun; cases hrun
      | ptrKey =>
        rw [hcase] at hty
        cases hty
        dsimp only [DocType.Fields, DocType.Elem] at hrun
        cases hr : filterEntries (.mk "struct" (GoType.structT sn fs).typeName .noElem dfs
            (.structT sn fs) m) rest m with
        | ok r =>
          rw [hr] at hrun
          cases hrun
          rw [structFree_preStrip_id .ptrKey m v0 rfl]
          rw [filter_pre_entries rest sn fs m _ r hff hok hr]
        | err er => rw [hr] at hrun; cases hrun
        | crash er => rw [hr] at hrun; cases hrun
      | ptrOther pn =>
        rw [hcase] at hty
        cases hty
        dsimp only [DocType.Fields, DocType.Elem] at hrun
        cases hr : filterEntries (.mk "struct" (GoType.structT sn fs).typeName .noElem dfs
            (.structT sn fs) m) rest m with
        | ok r =>
          rw [hr] at hrun
          cases hrun
          rw [structFree_preStrip_id (.ptrOther pn) m v0 rfl]
          rw [filter_pre_entries rest sn fs m _ r hff hok hr]
        | err er => rw [hr] at hrun; cases hrun
        | crash er => rw [hr] at hrun; cases hrun

theorem filter_pre_elems : ∀ (xs : JSONArr) (sn : String) (fs : GoFields) (m : String)
    (xs' : JSONArr),
    ffFields fs m = true → filterElems (.structT sn fs) xs m = .ok xs' →
    preStripArr (.structT sn fs) m xs = xs'
  | .nil, sn, fs, m, xs', _, hrun => by
    cases hrun
    rfl
  | .cons v rest, sn, fs, m, xs', hff, hrun => by
    cases v with
    | objV kvs0 =>
      rw [filterElems] at hrun
      cases hnd : NewDocType (.structT sn fs) m with
      | ok d2 =>
        rw [hnd] at hrun
        dsimp only [] at hrun
        cases hin : filterEntries d2 kvs0 m with
        | ok kvs2 =>
          rw [hin] at hrun
          dsimp only [] at hrun
          cases hr : filterElems (.structT sn fs) rest m with
          | ok r =>
            rw [hr] at hrun
            cases hrun
            rw [preStripArr, preStrip]
            rw [filter_pre_entries kvs0 sn fs m d2 kvs2 hff hnd hin]
            rw [filter_pre_elems rest sn fs m r hff hr]
          | err e => rw [hr] at hrun; cases hrun
          | crash e => rw [hr] at hrun; cases hrun
        | err e => rw [hin] at hrun; cases hrun
        | crash e => rw [hin] at hrun; cases hrun
      | err e => rw [hnd] at hrun; cases hrun
      | crash e => rw [hnd] at hrun; cases hrun
    | null => cases hrun
    | boolV b => cases hrun
    | numV n => cases hrun
    | strV s => cases hrun
    | arrV ys => cases hrun
end

/-- C1 counterexample.  For the destination `Outer2` (field `G` tagged
POST, of a struct type whose only field is PUT-tagged),
decode-filter-re-encode-decode of `{"G": {"P": 5}}` for POST populates
the PUT-only nested field `P` with 5, whereas decoding the same payload
with all non-POST keys pre-stripped leaves `P` zero: the two decodes
differ, and a field lacking the POST tag reaches the destination value. -/
theorem claim1_counterexample :
    copyJSON c2OuterT (.objV c2Payload) "POST" =
      .ok (.structV (.cons "G" (.structV (.cons "P" (.intV 5) .nil)) .nil)) ∧
    decodeTyped c2OuterT (preStrip c2OuterT "POST" (.objV c2Payload)) =
      .ok (.structV (.cons "G" (.structV (.cons "P" (.intV 0) .nil)) .nil)) ∧
    ¬ (copyJSON c2OuterT (.objV c2Payload) "POST" =
        decodeTyped c2OuterT (preStrip c2OuterT "POST" (.objV c2Payload))) := by
  refine ⟨rfl, rfl, ?_⟩
  intro h
  rw [show copyJSON c2OuterT (.objV c2Payload) "POST" =
      .ok (.structV (.cons "G" (.structV (.cons "P" (.intV 5) .nil)) .nil)) from rfl,
    show decodeTyped c2OuterT (preStrip c2OuterT "POST" (.objV c2Payload)) =
      .ok (.structV (.cons "G" (.structV (.cons "P" (.intV 0) .nil)) .nil)) from rfl] at h
  simp at h

/-- C1 (amended).  Provided the destination type is `fullyFiltered` for
the method — every visible struct-typed field and visible
slice-of-struct element type has at least one visible field of its own,
recursively, and no struct hides inside a visible map-, deeper-slice- or
scalar-typed field — the decode-filter-re-encode-decode pipeline of
`copyJSON` agrees with directly decoding the payload pre-stripped of all
non-visible keys: a successful `copyJSON` run returns exactly the typed
decode of the pre-stripped payload, so under this proviso no field
lacking the method's tag reaches the destination value. -/
theorem claim1_copy_equals_prestripped_decode (t : GoType) (kvs : JSONObj) (method : String)
    (v : GoValue) (hful : fullyFiltered t method = true)
    (hok : copyJSON t (.objV kvs) method = .ok v) :
    decodeTyped t (preStrip t method (.objV kvs)) = .ok v := by
  unfold copyJSON at hok
  dsimp only [decodeBodyToMap] at hok
  cases t with
  | structT n fs =>
    dsimp only [] at hok
    cases hfil : filterJSON (.structT n fs) kvs method with
    | ok filtered =>
      rw [hfil] at hok
      dsimp only [] at hok
      have hfil2 := hfil
      rw [filterJSON] at hfil2
      cases hnd : NewDocType (.structT n fs) method with
      | ok d =>
        rw [hnd] at hfil2
        have hpre : preStripObj (specFieldsOf fs method) method kvs = filtered :=
          filter_pre_entries kvs n fs method d filtered hful hnd hfil2
        rw [preStrip, hpre]
        exact hok
      | err e => rw [hnd] at hfil2; cases hfil2
      | crash e => rw [hnd] at hfil2; cases hfil2
    | err e => rw [hfil] at hok; cases hok
    | crash e => rw [hfil] at hok; cases hok
  | stringT => cases hok
  | boolT => cases hok
  | intT => cases hok
  | ptrKey => cases hok
  | ptrOther x => cases hok
  | sliceT x => cases hok
  | mapT x => cases hok

def c1Payload : JSONObj :=
  .cons "POSTInteger" (.numV 1) (.cons "PUTInteger" (.numV 2) .nil)

/-- C1 witness: `Inner` is fully filterable for POST; copying
`{"POSTInteger": 1, "PUTInteger": 2}` equals decoding the pre-stripped
payload, with only the POST field populated. -/
theorem claim1_witness :
    fullyFiltered testInnerT "POST" = true ∧
    copyJSON testInnerT (.objV c1Payload) "POST" =
      .ok (.structV (.cons "POSTInteger" (.intV 1) (.cons "POSTString" (.strV "")
        (.cons "POSTIntSlice" .nilV (.cons "PUTInteger" (.intV 0)
        (.cons "PUTString" (.strV "") (.cons "PUTIntSlice" .nilV .nil))))))) ∧
    decodeTyped testInnerT (preStrip testInnerT "POST" (.objV c1Payload)) =
      .ok (.structV (.cons "POSTInteger" (.intV 1) (.cons "POSTString" (.strV "")
        (.cons "POSTIntSlice" .nilV (.cons "PUTInteger" (.intV 0)
        (.cons "PUTString" (.strV "") (.cons "PUTIntSlice" .nilV .nil))))))) :=
  ⟨rfl, rfl, claim1_copy_equals_prestripped_decode testInnerT c1Payload "POST" _ rfl rfl⟩

end Goaeoas
